import Mathlib

/-!
Shallow embedding of the tactician repository's course-geometry and
performance-vector engine (`src/utils/sailingMath.ts` and the
`calculateLayerData` function of the map component), together with
theorems settling the specification claims about it.

JavaScript `number` arithmetic is modelled over `ℝ`; `Infinity` values
produced by `getXAtY0` are modelled with `EReal`; `Math.atan2(y, x)` is
modelled as `Complex.arg (x + y*I)`, which agrees with the JS function
on all non-NaN inputs; the JS remainder `a % b` (truncating) is
modelled by `jsMod`.
-/

namespace Tactician

noncomputable section

open Real

/-- 2D point, `src/types.ts`. -/
structure Point where
  x : ℝ
  y : ℝ

/-- `toRadians`, sailingMath.ts line 3. -/
def toRadians (deg : ℝ) : ℝ := deg * Real.pi / 180

/-- `toDegrees`, sailingMath.ts line 4. -/
def toDegrees (rad : ℝ) : ℝ := rad * 180 / Real.pi

/-- `Math.atan2 y x` modelled via the complex argument of `x + y i`,
which matches atan2's quadrant conventions (and `atan2 0 0 = 0`). -/
def atan2 (y x : ℝ) : ℝ := Complex.arg (Complex.mk x y)

/-- JavaScript remainder `a % b` (rounds the quotient toward zero). -/
def jsMod (a b : ℝ) : ℝ :=
  if 0 ≤ a / b then a - b * ⌊a / b⌋ else a - b * ⌈a / b⌉

/-- `rotatePoint`, sailingMath.ts lines 7-21. -/
def rotatePoint (point center : Point) (angleDeg : ℝ) : Point :=
  let rad := toRadians angleDeg
  let c := Real.cos rad
  let s := Real.sin rad
  let dx := point.x - center.x
  let dy := point.y - center.y
  ⟨center.x + (dx * c - dy * s), center.y + (dx * s + dy * c)⟩

/-- `projectPoint`, sailingMath.ts lines 24-30. -/
def projectPoint (start : Point) (angle dist : ℝ) : Point :=
  let rad := toRadians angle
  ⟨start.x + dist * Real.sin rad, start.y + dist * Real.cos rad⟩

/-- The determinant computed inside `intersectLines`
(sailingMath.ts line 45): `v1.x * (-v2.y) - v1.y * (-v2.x)` for unit
direction vectors `v = (sin rad, cos rad)`. -/
def lineDet (angle1 angle2 : ℝ) : ℝ :=
  Real.sin (toRadians angle1) * (-Real.cos (toRadians angle2)) -
    Real.cos (toRadians angle1) * (-Real.sin (toRadians angle2))

/-- `intersectLines`, sailingMath.ts lines 33-55. Returns `none` for
near-parallel direction vectors (|det| < 0.0001). -/
def intersectLines (p1 : Point) (angle1 : ℝ) (p2 : Point) (angle2 : ℝ) :
    Option Point :=
  let det := lineDet angle1 angle2
  if |det| < 0.0001 then none
  else
    let dx := p2.x - p1.x
    let dy := p2.y - p1.y
    let t := (dx * (-Real.cos (toRadians angle2)) -
      dy * (-Real.sin (toRadians angle2))) / det
    some ⟨p1.x + t * Real.sin (toRadians angle1),
      p1.y + t * Real.cos (toRadians angle1)⟩

/-- `getUpwindTWA`, sailingMath.ts lines 60-76. -/
def getUpwindTWA (windSpeed : ℝ) : ℝ :=
  if windSpeed ≤ 4 then 50
  else if 20 ≤ windSpeed then 38
  else if windSpeed < 10 then 50 - (windSpeed - 4) / 6 * 8
  else 42 - (windSpeed - 10) / 10 * 4

/-- `getTackingAngles`, sailingMath.ts lines 78-87. -/
structure TackingAngles where
  portTack : ℝ
  starboardTack : ℝ
  twa : ℝ

/-- `getTackingAngles`, sailingMath.ts lines 78-87. -/
def getTackingAngles (windDir windSpeed : ℝ) : TackingAngles :=
  let twa := getUpwindTWA windSpeed
  ⟨jsMod (windDir + twa + 360) 360, jsMod (windDir - twa + 360) 360, twa⟩

/-- The base maximum speed computed inside `calculateBoatSpeed`
(sailingMath.ts lines 107-118): light-air ramp with a floor, heavy-air
diminishing returns, capped at 8.5. -/
def baseMaxSpeed (windSpeed : ℝ) : ℝ :=
  min
    (if windSpeed < 10 then
      (if windSpeed * 0.7 < 3 then 3 + windSpeed / 10 else windSpeed * 0.7)
    else 6.2 + (windSpeed - 10) * 0.1)
    8.5

/-- The smoothstep interpolation helper of `calculateBoatSpeed`
(sailingMath.ts line 145). -/
def smoothStep (t : ℝ) : ℝ := t * t * (3 - 2 * t)

/-- The TWA normalisation of `calculateBoatSpeed`
(sailingMath.ts line 94): `Math.abs(twa > 180 ? 360 - twa : twa)`. -/
def normAngle (twa : ℝ) : ℝ := |if 180 < twa then 360 - twa else twa|

/-- Body of `calculateBoatSpeed` after TWA normalisation
(sailingMath.ts lines 97-155). -/
def calcBSAngle (angle windSpeed : ℝ) : ℝ :=
  if angle < 30 then 0
  else
    let b := baseMaxSpeed windSpeed
    let optTWA := getUpwindTWA windSpeed
    if angle < optTWA then
      b * Real.sin ((angle - 30) / (optTWA - 30) * Real.pi / 2)
    else
      let reachSpeed := b * 1.15
      let downwindSpeed := if 14 < windSpeed then b * 1.3 else b * 0.95
      if angle ≤ 90 then
        b + (reachSpeed - b) * smoothStep ((angle - optTWA) / (90 - optTWA))
      else
        reachSpeed + (downwindSpeed - reachSpeed) * smoothStep ((angle - 90) / 90)

/-- `calculateBoatSpeed`, sailingMath.ts lines 92-156. -/
def calculateBoatSpeed (twa windSpeed : ℝ) : ℝ :=
  calcBSAngle (normAngle twa) windSpeed

/-- The two tacks, `'port' | 'stbd'`. -/
inductive Tack where
  | port : Tack
  | stbd : Tack

/-- Result record of `getGroundVector`. -/
structure GroundVector where
  cog : ℝ
  sog : ℝ
  heading : ℝ

/-- Through-water heading of `getGroundVector`
(sailingMath.ts lines 171-173). -/
def headingOf (windDir windSpeed : ℝ) (tack : Tack) : ℝ :=
  let twa := (getTackingAngles windDir windSpeed).twa
  match tack with
  | .port => jsMod (windDir + twa) 360
  | .stbd => jsMod (windDir - twa + 360) 360

/-- Ground velocity vector of `getGroundVector`
(sailingMath.ts lines 178-193): boat through-water velocity plus
current velocity, in the compass frame (x east, y north). -/
def groundVel (windDir windSpeed currentDir currentSpeed : ℝ) (tack : Tack) :
    ℝ × ℝ :=
  let twa := (getTackingAngles windDir windSpeed).twa
  let boatSpeed := calculateBoatSpeed twa windSpeed
  let hRad := toRadians (headingOf windDir windSpeed tack)
  let tRad := toRadians currentDir
  (boatSpeed * Real.sin hRad + currentSpeed * Real.sin tRad,
    boatSpeed * Real.cos hRad + currentSpeed * Real.cos tRad)

/-- `getGroundVector`, sailingMath.ts lines 158-203. -/
def getGroundVector (windDir windSpeed currentDir currentSpeed : ℝ)
    (tack : Tack) : GroundVector :=
  let g := groundVel windDir windSpeed currentDir currentSpeed tack
  let cog0 := toDegrees (atan2 g.1 g.2)
  let cog := if cog0 < 0 then cog0 + 360 else cog0
  let sog := Real.sqrt (g.1 ^ 2 + g.2 ^ 2)
  ⟨cog, sog, headingOf windDir windSpeed tack⟩

/-- `CourseConfig`, src/types.ts. -/
structure CourseConfig where
  windDirection : ℝ
  windSpeed : ℝ
  currentDirection : ℝ
  currentSpeed : ℝ
  courseAxis : ℝ
  courseLength : ℝ
  startLineLength : ℝ
  startLineBias : ℝ
  markShift : ℝ
  showLadderRungs : Bool
  showLaylines : Bool
  showWindLine : Bool
  showZones : Bool

/-- Pin mark world position (`calculateLayerData`): `(-startLineLength/2, 0)`
rotated about the origin by `startLineBias`. -/
def pinLocWorld (cfg : CourseConfig) : Point :=
  rotatePoint ⟨-(cfg.startLineLength / 2), 0⟩ ⟨0, 0⟩ cfg.startLineBias

/-- RC-boat world position (`calculateLayerData`). -/
def rcLocWorld (cfg : CourseConfig) : Point :=
  rotatePoint ⟨cfg.startLineLength / 2, 0⟩ ⟨0, 0⟩ cfg.startLineBias

/-- Mark world position (`calculateLayerData`): `(markShift, courseLength)`. -/
def markLocWorld (cfg : CourseConfig) : Point :=
  ⟨cfg.markShift, cfg.courseLength⟩

/-- Port-tack ground vector of the configuration (`calculateLayerData`). -/
def portData (cfg : CourseConfig) : GroundVector :=
  getGroundVector cfg.windDirection cfg.windSpeed cfg.currentDirection
    cfg.currentSpeed .port

/-- Starboard-tack ground vector of the configuration. -/
def stbdData (cfg : CourseConfig) : GroundVector :=
  getGroundVector cfg.windDirection cfg.windSpeed cfg.currentDirection
    cfg.currentSpeed .stbd

/-- `markPortLaylineAngle = (portData.cog + 180) % 360`. -/
def markPortLaylineAngle (cfg : CourseConfig) : ℝ :=
  jsMod ((portData cfg).cog + 180) 360

/-- `markStbdLaylineAngle = (stbdData.cog + 180) % 360`. -/
def markStbdLaylineAngle (cfg : CourseConfig) : ℝ :=
  jsMod ((stbdData cfg).cog + 180) 360

/-- `getXAtY0` of `calculateLayerData`: X-intercept at `y = 0` of the line
through `(·, startY)` with the given compass angle; near-vertical lines
produce `±Infinity`, modelled in `EReal`. -/
def getXAtY0 (angle startY : ℝ) : EReal :=
  if |Real.cos (toRadians angle)| < 0.001 then
    (if 180 < angle then (⊥ : EReal) else (⊤ : EReal))
  else ((-startY * Real.tan (toRadians angle) : ℝ) : EReal)

/-- The raw left-corner intersection (`calculateLayerData` line 97):
pin-to-wind starboard ground track crossed with the port mark layline. -/
def leftIntersection (cfg : CourseConfig) : Option Point :=
  intersectLines (pinLocWorld cfg) (stbdData cfg).cog (markLocWorld cfg)
    (markPortLaylineAngle cfg)

/-- The raw right-corner intersection (`calculateLayerData` line 98). -/
def rightIntersection (cfg : CourseConfig) : Option Point :=
  intersectLines (rcLocWorld cfg) (portData cfg).cog (markLocWorld cfg)
    (markStbdLaylineAngle cfg)

/-- Left layline corner after the degenerate-case fallbacks
(`calculateLayerData` lines 110-113): collapse to the pin when the port
layline's X-intercept at water level exceeds the pin's X, or when the
intersection lies behind the start line (`y < 0`). -/
def leftCornerWorld (cfg : CourseConfig) : Option Point :=
  let c1 :=
    if ((pinLocWorld cfg).x : EReal) <
        getXAtY0 (markPortLaylineAngle cfg) cfg.courseLength then
      some (pinLocWorld cfg)
    else leftIntersection cfg
  match c1 with
  | some p => if p.y < 0 then some (pinLocWorld cfg) else some p
  | none => none

/-- Right layline corner after the degenerate-case fallbacks
(`calculateLayerData` lines 111-114). -/
def rightCornerWorld (cfg : CourseConfig) : Option Point :=
  let c1 :=
    if getXAtY0 (markStbdLaylineAngle cfg) cfg.courseLength <
        ((rcLocWorld cfg).x : EReal) then
      some (rcLocWorld cfg)
    else rightIntersection cfg
  match c1 with
  | some p => if p.y < 0 then some (rcLocWorld cfg) else some p
  | none => none

/-! ### Ladder rungs (`calculateLayerData`, section B)

The component computes screen coordinates with `toScreen` from the
viewport `width`/`height` and clips each rung against the padded
viewport rectangle; a rung is emitted only when the clipped segment
meets the rectangle boundary. -/

/-- The world-to-screen scale of the map component. -/
def scaleOf (cfg : CourseConfig) (width height : ℝ) : ℝ :=
  min (width - 2 * 50) (height - 2 * 50) / (cfg.courseLength * 1.4)

/-- `toScreen` of the map component. -/
def toScreen (cfg : CourseConfig) (width height : ℝ) (p : Point) : Point :=
  ⟨width / 2 + p.x * scaleOf cfg width height,
    height * 0.85 - p.y * scaleOf cfg width height⟩

/-- One emitted ladder rung. -/
structure Rung where
  p1 : Point
  p2 : Point
  labelPos : Point
  rotation : ℝ
  id : ℕ
  label : ℝ

/-- `numRungs = Math.ceil((courseLength * 1.1) / step)` with `step = 100`. -/
def numRungs (cfg : CourseConfig) : ℤ := ⌈cfg.courseLength * 1.1 / 100⌉

/-- Screen endpoints of the candidate rung `i`: the rung is centered on
the point `i * 100` metres downwind of the mark and runs perpendicular
to the wind over `courseLength * 4` metres. -/
def rungEndpoints (cfg : CourseConfig) (width height : ℝ) (i : ℕ) :
    Point × Point :=
  let centerWorld := projectPoint (markLocWorld cfg)
    (cfg.windDirection + 180) (i * 100)
  let rungWidth := cfg.courseLength * 4
  (toScreen cfg width height
      (projectPoint centerWorld (cfg.windDirection + 90) (rungWidth / 2)),
    toScreen cfg width height
      (projectPoint centerWorld (cfg.windDirection + 90 + 180) (rungWidth / 2)))

/-- The boundary crossings of rung `i` with the padded viewport
rectangle (`calculateLayerData` lines 145-172). -/
def rungIntersections (cfg : CourseConfig) (width height : ℝ) (i : ℕ) :
    List Point :=
  let pr := rungEndpoints cfg width height i
  let p1 := pr.1
  let p2 := pr.2
  let dx := p2.x - p1.x
  let dy := p2.y - p1.y
  let minX := (20 : ℝ)
  let maxX := width - 20
  let minY := (20 : ℝ)
  let maxY := height - 20
  (if 0.01 < |dx| then
    (let tLeft := (minX - p1.x) / dx
     if 0 ≤ tLeft ∧ tLeft ≤ 1 then
       (let y := p1.y + tLeft * dy
        if minY ≤ y ∧ y ≤ maxY then [(⟨minX, y⟩ : Point)] else [])
     else []) ++
    (let tRight := (maxX - p1.x) / dx
     if 0 ≤ tRight ∧ tRight ≤ 1 then
       (let y := p1.y + tRight * dy
        if minY ≤ y ∧ y ≤ maxY then [(⟨maxX, y⟩ : Point)] else [])
     else [])
  else []) ++
  (if 0.01 < |dy| then
    (let tTop := (minY - p1.y) / dy
     if 0 ≤ tTop ∧ tTop ≤ 1 then
       (let x := p1.x + tTop * dx
        if minX ≤ x ∧ x ≤ maxX then [(⟨x, minY⟩ : Point)] else [])
     else []) ++
    (let tBottom := (maxY - p1.y) / dy
     if 0 ≤ tBottom ∧ tBottom ≤ 1 then
       (let x := p1.x + tBottom * dx
        if minX ≤ x ∧ x ≤ maxX then [(⟨x, maxY⟩ : Point)] else [])
     else [])
  else [])

/-- The comparator used to sort boundary crossings: by X when the X's
differ by more than 1, otherwise by Y. -/
def rungCmp (a b : Point) : Bool :=
  if 1 < |a.x - b.x| then a.x ≤ b.x else a.y ≤ b.y

/-- Candidate rung `i`, emitted only when the clipped segment meets the
viewport rectangle (`best` is defined). -/
def mkRung (cfg : CourseConfig) (width height : ℝ) (i : ℕ) : Option Rung :=
  let pr := rungEndpoints cfg width height i
  let dx := pr.2.x - pr.1.x
  let dy := pr.2.y - pr.1.y
  match (rungIntersections cfg width height i).mergeSort rungCmp with
  | [] => none
  | best :: _ =>
    let a0 := toDegrees (atan2 dy dx)
    let a1 := if 90 < a0 then a0 - 180 else a0
    let a2 := if a1 < -90 then a1 + 180 else a1
    some ⟨pr.1, pr.2, best, a2, i, i * 100⟩

/-- The emitted ladder rungs (`calculateLayerData` lines 124-190). -/
def ladderRungs (cfg : CourseConfig) (width height : ℝ) : List Rung :=
  if cfg.showLadderRungs then
    (List.range (numRungs cfg + 1).toNat).filterMap (mkRung cfg width height)
  else []

/-! ### Field polygon and tactical zones (`calculateLayerData`, sections A, D)

The zone path strings are built by applying the affine `toScreen` map
pointwise to world-coordinate vertices; the embedding records the
world-coordinate vertex lists. -/

/-- Playing-field polygon vertices pin → leftCorner → mark → rightCorner
→ RC, emitted only when both corners resolve. -/
def fieldPolyWorld (cfg : CourseConfig) : Option (List Point) :=
  match leftCornerWorld cfg, rightCornerWorld cfg with
  | some l, some r =>
      some [pinLocWorld cfg, l, markLocWorld cfg, r, rcLocWorld cfg]
  | _, _ => none

/-- Compass angle of the vector `frm → to` (`calculateLayerData`
lines 272-281): degrees from +Y, normalised into `[0, 360)`. -/
def angleTo (frm tgt : Point) : ℝ :=
  let a := toDegrees (atan2 (tgt.x - frm.x) (tgt.y - frm.y))
  if a < 0 then a + 360 else a

/-- Angle bisector via vector sum (`calculateLayerData` lines 291-301). -/
def bisect (a1 a2 : ℝ) : ℝ :=
  let r1 := toRadians a1
  let r2 := toRadians a2
  let b := toDegrees (atan2 (Real.sin r1 + Real.sin r2)
    (Real.cos r1 + Real.cos r2))
  if b < 0 then b + 360 else b

/-- `getXOnPoly` (`calculateLayerData` lines 307-326): X of the field
boundary through `corner` at height `targetY`. -/
def getXOnPoly (start corner mark : Point) (targetY : ℝ) : ℝ :=
  if corner.y < targetY then
    corner.x + (mark.x - corner.x) * ((targetY - corner.y) / (mark.y - corner.y))
  else
    start.x + (corner.x - start.x) * ((targetY - start.y) / (corner.y - start.y))

/-- `getXOnLine` (`calculateLayerData` lines 329-334): X at height
`targetY` of the line from the mark with the given compass angle. -/
def getXOnLine (mark : Point) (angle targetY : ℝ) : ℝ :=
  mark.x + (targetY - mark.y) * Real.tan (toRadians angle)

/-- World-coordinate vertex lists of the five zone polygons. -/
structure ZonesW where
  green : List Point
  redLeft : List Point
  redRight : List Point
  blueBottom : List Point
  blueTop : List Point

/-- Zone construction (`calculateLayerData` lines 262-414) given both
resolved corners `l` and `r`. -/
def mkZones (cfg : CourseConfig) (l r : Point) : ZonesW :=
  let pin := pinLocWorld cfg
  let rc := rcLocWorld cfg
  let mark := markLocWorld cfg
  let yBot := cfg.courseLength * 0.15
  let yTop := cfg.courseLength * 0.85
  let angleWind := jsMod (cfg.windDirection + 180) 360
  let angleL := angleTo mark l
  let angleR := angleTo mark r
  let angleWarnL := bisect angleWind angleL
  let angleWarnR := bisect angleWind angleR
  let pLTop : Point := ⟨getXOnPoly pin l mark yTop, yTop⟩
  let pRTop : Point := ⟨getXOnPoly rc r mark yTop, yTop⟩
  let pLBot : Point := ⟨getXOnPoly pin l mark yBot, yBot⟩
  let pRBot : Point := ⟨getXOnPoly rc r mark yBot, yBot⟩
  let blueTop := [mark, pRTop, pLTop]
  let blueBottom :=
    [pLBot] ++ (if l.y < yBot then [l] else []) ++ [pin, rc] ++
      (if r.y < yBot then [r] else []) ++ [pRBot]
  let xWLTopRaw := getXOnLine mark angleWarnL yTop
  let xWLBotRaw := getXOnLine mark angleWarnL yBot
  let xWRTopRaw := getXOnLine mark angleWarnR yTop
  let xWRBotRaw := getXOnLine mark angleWarnR yBot
  let wLTop0 := max xWLTopRaw pLTop.x
  let wLBot0 := max xWLBotRaw pLBot.x
  let wRTop0 := min xWRTopRaw pRTop.x
  let wRBot0 := min xWRBotRaw pRBot.x
  let wLTop1 := if wRTop0 < wLTop0 then (wLTop0 + wRTop0) / 2 else wLTop0
  let wRTop1 := if wRTop0 < wLTop0 then (wLTop0 + wRTop0) / 2 else wRTop0
  let wLBot1 := if wRBot0 < wLBot0 then (wLBot0 + wRBot0) / 2 else wLBot0
  let wRBot1 := if wRBot0 < wLBot0 then (wLBot0 + wRBot0) / 2 else wRBot0
  let pWLTop : Point := ⟨wLTop1, yTop⟩
  let pWLBot : Point := ⟨wLBot1, yBot⟩
  let pWRTop : Point := ⟨wRTop1, yTop⟩
  let pWRBot : Point := ⟨wRBot1, yBot⟩
  let green := [pWLTop, pWRTop, pWRBot, pWLBot]
  let redLeft :=
    [pLTop, pWLTop, pWLBot, pLBot] ++
      (if yBot < l.y ∧ l.y < yTop then [l] else [])
  let redRight :=
    [pWRTop, pRTop] ++ (if yBot < r.y ∧ r.y < yTop then [r] else []) ++
      [pRBot, pWRBot]
  ⟨green, redLeft, redRight, blueBottom, blueTop⟩

/-- The zones output of `calculateLayerData`: present only with
`showZones = true` and both corners resolved. -/
def zonesWorld (cfg : CourseConfig) : Option ZonesW :=
  if cfg.showZones then
    match leftCornerWorld cfg, rightCornerWorld cfg with
    | some l, some r => some (mkZones cfg l r)
    | _, _ => none
  else none

/-! ### Basic lemmas about the performance model -/

theorem getUpwindTWA_le_50 (w : ℝ) : getUpwindTWA w ≤ 50 := by
  unfold getUpwindTWA
  split_ifs <;> linarith

theorem le_getUpwindTWA (w : ℝ) : 38 ≤ getUpwindTWA w := by
  unfold getUpwindTWA
  split_ifs <;> linarith

theorem baseMaxSpeed_le (w : ℝ) : baseMaxSpeed w ≤ 8.5 :=
  min_le_right _ _

theorem le_baseMaxSpeed {w : ℝ} (hw : 0 ≤ w) : 3 ≤ baseMaxSpeed w := by
  unfold baseMaxSpeed
  rcases lt_or_le w 10 with h10 | h10
  · rcases lt_or_le (w * 0.7) 3 with h3 | h3
    · rw [if_pos h10, if_pos h3]
      refine le_min (by linarith) (by norm_num)
    · rw [if_pos h10, if_neg (not_lt.mpr h3)]
      exact le_min h3 (by norm_num)
  · rw [if_neg (not_lt.mpr h10)]
    refine le_min (by linarith) (by norm_num)

theorem smoothStep_nonneg {t : ℝ} (h0 : 0 ≤ t) (h1 : t ≤ 3 / 2) :
    0 ≤ smoothStep t := by
  unfold smoothStep
  nlinarith [sq_nonneg t, h0, h1]

theorem smoothStep_le_one {t : ℝ} (h0 : 0 ≤ t) (h1 : t ≤ 1) :
    smoothStep t ≤ 1 := by
  unfold smoothStep
  nlinarith [sq_nonneg (1 - t), h0, h1]

theorem smoothStep_le_three_sq {t : ℝ} (h0 : 0 ≤ t) :
    smoothStep t ≤ 3 * t ^ 2 := by
  unfold smoothStep
  nlinarith

theorem one_sub_smoothStep_le {t : ℝ} (h1 : t ≤ 1) :
    1 - smoothStep t ≤ 3 * (1 - t) ^ 2 := by
  unfold smoothStep
  nlinarith [sq_nonneg (1 - t)]

theorem normAngle_of_le {twa : ℝ} (h0 : 0 ≤ twa) (h1 : twa ≤ 180) :
    normAngle twa = twa := by
  unfold normAngle
  rw [if_neg (by linarith), abs_of_nonneg h0]

theorem normAngle_of_gt {twa : ℝ} (h0 : 180 < twa) (h1 : twa ≤ 360) :
    normAngle twa = 360 - twa := by
  unfold normAngle
  rw [if_pos h0, abs_of_nonneg (by linarith)]

theorem calcBSAngle_noGo {angle w : ℝ} (h : angle < 30) :
    calcBSAngle angle w = 0 := by
  unfold calcBSAngle
  rw [if_pos h]

theorem calcBSAngle_upwind {angle w : ℝ} (h30 : 30 ≤ angle)
    (hopt : angle < getUpwindTWA w) :
    calcBSAngle angle w = baseMaxSpeed w *
      Real.sin ((angle - 30) / (getUpwindTWA w - 30) * Real.pi / 2) := by
  unfold calcBSAngle
  rw [if_neg (not_lt.mpr h30), if_pos hopt]

theorem calcBSAngle_mid {angle w : ℝ} (hopt : getUpwindTWA w ≤ angle)
    (h90 : angle ≤ 90) :
    calcBSAngle angle w = baseMaxSpeed w +
      (baseMaxSpeed w * 1.15 - baseMaxSpeed w) *
        smoothStep ((angle - getUpwindTWA w) / (90 - getUpwindTWA w)) := by
  have h38 := le_getUpwindTWA w
  unfold calcBSAngle
  rw [if_neg (not_lt.mpr (by linarith)), if_neg (not_lt.mpr hopt), if_pos h90]

theorem calcBSAngle_down {angle w : ℝ} (h90 : 90 < angle) :
    calcBSAngle angle w = baseMaxSpeed w * 1.15 +
      ((if 14 < w then baseMaxSpeed w * 1.3 else baseMaxSpeed w * 0.95) -
          baseMaxSpeed w * 1.15) *
        smoothStep ((angle - 90) / 90) := by
  have h50 := getUpwindTWA_le_50 w
  unfold calcBSAngle
  rw [if_neg (not_lt.mpr (by linarith)), if_neg (not_lt.mpr (by linarith)),
    if_neg (not_le.mpr h90)]

/-- Boat speed at the optimal upwind TWA is exactly the base max speed:
the upwind-ramp branch is left at `angle = optTWA` with interpolation
parameter `t = 0`. -/
theorem calcBS_at_opt (w : ℝ) :
    calculateBoatSpeed (getUpwindTWA w) w = baseMaxSpeed w := by
  have h38 := le_getUpwindTWA w
  have h50 := getUpwindTWA_le_50 w
  unfold calculateBoatSpeed
  rw [normAngle_of_le (by linarith) (by linarith),
    calcBSAngle_mid le_rfl (by linarith), sub_self, zero_div]
  simp [smoothStep]

/-- Boat speed over the whole normalised range is at most 11.05 kn. -/
theorem calcBSAngle_le {a w : ℝ} (ha0 : 0 ≤ a) (ha1 : a ≤ 180) (hw : 0 ≤ w) :
    calcBSAngle a w ≤ 11.05 := by
  have hb1 := baseMaxSpeed_le w
  have hb0 := le_baseMaxSpeed hw
  have h38 := le_getUpwindTWA w
  have h50 := getUpwindTWA_le_50 w
  rcases lt_or_le a 30 with h30 | h30
  · rw [calcBSAngle_noGo h30]; norm_num
  rcases lt_or_le a (getUpwindTWA w) with hup | hup
  · rw [calcBSAngle_upwind h30 hup]
    have hs := Real.sin_le_one ((a - 30) / (getUpwindTWA w - 30) * Real.pi / 2)
    nlinarith
  rcases le_or_lt a 90 with h90 | h90
  · rw [calcBSAngle_mid hup h90]
    set t := (a - getUpwindTWA w) / (90 - getUpwindTWA w) with ht
    have htden : (0 : ℝ) < 90 - getUpwindTWA w := by linarith
    have ht0 : 0 ≤ t := div_nonneg (by linarith) (by linarith)
    have ht1 : t ≤ 1 := (div_le_one htden).mpr (by linarith)
    have hs0 := smoothStep_nonneg ht0 (by linarith)
    have hs1 := smoothStep_le_one ht0 ht1
    nlinarith
  · rw [calcBSAngle_down h90]
    set t := (a - 90) / 90 with ht
    have ht0 : 0 ≤ t := div_nonneg (by linarith) (by norm_num)
    have ht1 : t ≤ 1 := (div_le_one (by norm_num)).mpr (by linarith)
    have hs0 := smoothStep_nonneg ht0 (by linarith)
    have hs1 := smoothStep_le_one ht0 ht1
    split_ifs <;> nlinarith

/-- C1 fails on the code: at TWA 90° in 23 kn of wind, the reach-speed
multiplier 1.15 lifts the boat speed to 8.625 kn, above the claimed
8.5 kn ceiling. -/
theorem claim1_counterexample : ¬ calculateBoatSpeed 90 23 ≤ 8.5 := by
  have hopt : getUpwindTWA 23 = 38 := by unfold getUpwindTWA; norm_num
  have hb : baseMaxSpeed 23 = 7.5 := by unfold baseMaxSpeed; norm_num
  have h : calculateBoatSpeed 90 23 = 8.625 := by
    unfold calculateBoatSpeed
    rw [normAngle_of_le (by norm_num) (by norm_num),
      calcBSAngle_mid (by rw [hopt]; norm_num) (by norm_num), hopt, hb]
    norm_num [smoothStep]
  rw [h]; norm_num

/-- C1 amended: the 8.5 kn ceiling caps only the base max speed; with
the reach (1.15×) and planing-downwind (1.3×) multipliers the boat
speed is bounded by 1.3 · 8.5 = 11.05 kn for every angle in [0, 360]
and every non-negative wind speed. -/
theorem claim1_amended (twa w : ℝ) (h0 : 0 ≤ twa) (h1 : twa ≤ 360)
    (hw : 0 ≤ w) : calculateBoatSpeed twa w ≤ 11.05 := by
  unfold calculateBoatSpeed
  rcases le_or_lt twa 180 with h180 | h180
  · rw [normAngle_of_le h0 h180]
    exact calcBSAngle_le h0 h180 hw
  · rw [normAngle_of_gt h180 h1]
    exact calcBSAngle_le (by linarith) (by linarith) hw

/-- Witness for the amended C1 at TWA 90°, wind 0 kn. -/
theorem claim1_witness : calculateBoatSpeed 90 0 ≤ 11.05 :=
  claim1_amended 90 0 (by norm_num) (by norm_num) (by norm_num)

/-- C2 fails on the code: at 4.5 kn of wind the light-air floor
`3 + w/10` is applied only when `0.7·w < 3`, so the code returns
`0.7 · 4.5 = 3.15`, not `max(0.7·4.5, 3 + 4.5/10) = 3.45`. -/
theorem claim2_counterexample :
    calculateBoatSpeed (getUpwindTWA (4.5 : ℝ)) 4.5 ≠
      max (0.7 * 4.5) (3 + 4.5 / 10) := by
  have h1 : calculateBoatSpeed (getUpwindTWA (4.5 : ℝ)) 4.5 =
      baseMaxSpeed 4.5 := calcBS_at_opt _
  have h2 : baseMaxSpeed 4.5 = 3.15 := by unfold baseMaxSpeed; norm_num
  have h3 : max (0.7 * 4.5 : ℝ) (3 + 4.5 / 10) = 3.45 := by
    rw [max_eq_right (by norm_num : (0.7 * 4.5 : ℝ) ≤ 3 + 4.5 / 10)]
    norm_num
  rw [h1, h2, h3]; norm_num

/-- C2 amended: below 10 kn the base max speed is `3 + w/10` exactly
when `0.7·w < 3` and `0.7·w` otherwise (not the max of the two); at or
above 10 kn it is `6.2 + 0.1·(w−10)` capped at 8.5; and
`calculateBoatSpeed` at the optimal upwind TWA returns exactly this
base max speed. -/
theorem claim2_amended (w : ℝ) (hw : 0 ≤ w) :
    calculateBoatSpeed (getUpwindTWA w) w = baseMaxSpeed w ∧
    (w < 10 →
      baseMaxSpeed w = if w * 0.7 < 3 then 3 + w / 10 else w * 0.7) ∧
    (10 ≤ w → baseMaxSpeed w = min (6.2 + (w - 10) * 0.1) 8.5) := by
  refine ⟨calcBS_at_opt w, ?_, ?_⟩
  · intro h10
    unfold baseMaxSpeed
    rw [if_pos h10]
    split_ifs with h3
    · exact min_eq_left (by linarith)
    · exact min_eq_left (by nlinarith)
  · intro h10
    unfold baseMaxSpeed
    rw [if_neg (not_lt.mpr h10)]

/-- Witness for the amended C2 at wind 12 kn. -/
theorem claim2_witness :
    calculateBoatSpeed (getUpwindTWA 12) 12 = baseMaxSpeed 12 ∧
    ((12 : ℝ) < 10 →
      baseMaxSpeed 12 = if (12 : ℝ) * 0.7 < 3 then 3 + 12 / 10 else 12 * 0.7) ∧
    ((10 : ℝ) ≤ 12 → baseMaxSpeed 12 = min (6.2 + (12 - 10) * 0.1) 8.5) :=
  claim2_amended 12 (by norm_num)

/-- C9: the upwind TWA is non-increasing in wind speed, 50° at and
below 4 kn, 38° at and above 20 kn. -/
theorem claim9 :
    (∀ w1 w2 : ℝ, w1 ≤ w2 → getUpwindTWA w2 ≤ getUpwindTWA w1) ∧
    (∀ w : ℝ, w ≤ 4 → getUpwindTWA w = 50) ∧
    (∀ w : ℝ, 20 ≤ w → getUpwindTWA w = 38) := by
  refine ⟨?_, ?_, ?_⟩
  · intro w1 w2 h
    unfold getUpwindTWA
    split_ifs <;> linarith
  · intro w h
    unfold getUpwindTWA
    rw [if_pos h]
  · intro w h
    unfold getUpwindTWA
    rw [if_neg (by linarith), if_pos h]

/-- Witness for C9 at wind speeds 3 and 25 kn. -/
theorem claim9_witness : getUpwindTWA 25 ≤ getUpwindTWA 3 :=
  claim9.1 3 25 (by norm_num)

theorem calcBS_at_30 (w : ℝ) : calculateBoatSpeed 30 w = 0 := by
  have h38 := le_getUpwindTWA w
  unfold calculateBoatSpeed
  rw [normAngle_of_le (by norm_num) (by norm_num),
    calcBSAngle_upwind le_rfl (by linarith)]
  norm_num

theorem calcBS_at_90 (w : ℝ) :
    calculateBoatSpeed 90 w = baseMaxSpeed w * 1.15 := by
  have h50 := getUpwindTWA_le_50 w
  unfold calculateBoatSpeed
  rw [normAngle_of_le (by norm_num) (by norm_num),
    calcBSAngle_mid (by linarith) le_rfl,
    div_self (by linarith : (90 : ℝ) - getUpwindTWA w ≠ 0)]
  have h1 : smoothStep 1 = 1 := by norm_num [smoothStep]
  rw [h1]; ring

set_option maxHeartbeats 1000000 in
/-- C3: in any positive wind, the boat speed is zero below 30° off the
wind and moves by at most 0.01 kn within 0.001° of each of the three
piecewise boundaries 30°, the optimal TWA, and 90° (the quantitative
reading of "continuous, no jump greater than 0.01 kn"). -/
theorem claim3 (w : ℝ) (hw : 0 < w) :
    (∀ a : ℝ, 0 ≤ a → a < 30 → calculateBoatSpeed a w = 0) ∧
    (∀ a : ℝ, |a - 30| ≤ 1 / 1000 →
      |calculateBoatSpeed a w - calculateBoatSpeed 30 w| ≤ 1 / 100) ∧
    (∀ a : ℝ, |a - getUpwindTWA w| ≤ 1 / 1000 →
      |calculateBoatSpeed a w - calculateBoatSpeed (getUpwindTWA w) w| ≤
        1 / 100) ∧
    (∀ a : ℝ, |a - 90| ≤ 1 / 1000 →
      |calculateBoatSpeed a w - calculateBoatSpeed 90 w| ≤ 1 / 100) := by
  have hb1 := baseMaxSpeed_le w
  have hb0 := le_baseMaxSpeed hw.le
  have h38 := le_getUpwindTWA w
  have h50 := getUpwindTWA_le_50 w
  have hpi4 := Real.pi_le_four
  have hpi0 := Real.pi_pos
  refine ⟨?_, ?_, ?_, ?_⟩
  · -- no-go zone
    intro a ha0 ha30
    unfold calculateBoatSpeed
    rw [normAngle_of_le ha0 (by linarith), calcBSAngle_noGo ha30]
  · -- boundary at 30°
    intro a ha
    rw [abs_le] at ha
    rw [calcBS_at_30, sub_zero]
    rcases lt_or_le a 30 with h30 | h30
    · unfold calculateBoatSpeed
      rw [normAngle_of_le (by linarith) (by linarith), calcBSAngle_noGo h30]
      norm_num
    · unfold calculateBoatSpeed
      rw [normAngle_of_le (by linarith) (by linarith),
        calcBSAngle_upwind h30 (by linarith)]
      set x := (a - 30) / (getUpwindTWA w - 30) * Real.pi / 2 with hx
      have hden : (0 : ℝ) < getUpwindTWA w - 30 := by linarith
      have hp0 : 0 ≤ (a - 30) / (getUpwindTWA w - 30) :=
        div_nonneg (by linarith) hden.le
      have hp1 : (a - 30) / (getUpwindTWA w - 30) ≤ 1 / 8000 := by
        rw [div_le_div_iff₀ hden (by norm_num)]
        nlinarith
      have hx0 : 0 ≤ x := by positivity
      have hx1 : x ≤ 1 / 1000 := by rw [hx]; nlinarith
      have hs0 : 0 ≤ Real.sin x :=
        Real.sin_nonneg_of_nonneg_of_le_pi hx0 (by nlinarith)
      have hs1 : Real.sin x ≤ x := Real.sin_le hx0
      rw [abs_of_nonneg (by nlinarith)]
      nlinarith
  · -- boundary at the optimal TWA
    intro a ha
    rw [abs_le] at ha
    rw [calcBS_at_opt]
    rcases lt_or_le a (getUpwindTWA w) with hup | hup
    · unfold calculateBoatSpeed
      rw [normAngle_of_le (by linarith) (by linarith),
        calcBSAngle_upwind (by linarith) hup]
      have hden : (0 : ℝ) < getUpwindTWA w - 30 := by linarith
      set y := (1 - (a - 30) / (getUpwindTWA w - 30)) * (Real.pi / 2) with hy
      have hqeq : 1 - (a - 30) / (getUpwindTWA w - 30) =
          (getUpwindTWA w - a) / (getUpwindTWA w - 30) := by
        field_simp
      have hq0 : 0 ≤ 1 - (a - 30) / (getUpwindTWA w - 30) := by
        rw [hqeq]
        exact div_nonneg (by linarith) hden.le
      have hq1 : 1 - (a - 30) / (getUpwindTWA w - 30) ≤ 1 / 8000 := by
        rw [hqeq, div_le_div_iff₀ hden (by norm_num)]
        nlinarith
      have hy0 : 0 ≤ y := mul_nonneg hq0 (by positivity)
      have hy1 : y ≤ 1 / 4000 := by rw [hy]; nlinarith
      have hxy : (a - 30) / (getUpwindTWA w - 30) * Real.pi / 2 =
          Real.pi / 2 - y := by rw [hy]; ring
      rw [hxy, Real.sin_pi_div_two_sub]
      have hcb := Real.cos_bound
        (show |y| ≤ 1 by rw [abs_of_nonneg hy0]; linarith)
      rw [abs_of_nonneg hy0, abs_le] at hcb
      have hc1 : Real.cos y ≤ 1 := Real.cos_le_one y
      have hy2 : y ^ 2 ≤ 1 / 16000000 := by nlinarith [hy0, hy1]
      have hy4 : y ^ 4 ≤ y ^ 2 := by nlinarith [hy2, sq_nonneg y]
      have h1mc : 0 ≤ 1 - Real.cos y := by linarith
      have hble : baseMaxSpeed w * Real.cos y ≤ baseMaxSpeed w :=
        mul_le_of_le_one_right (by linarith) hc1
      have hkey : baseMaxSpeed w * (1 - Real.cos y) ≤ 8.5 * (1 - Real.cos y) :=
        mul_le_mul_of_nonneg_right hb1 h1mc
      have hcc : 1 - Real.cos y ≤ y ^ 2 / 2 + y ^ 4 * (5 / 96) := by
        linarith [hcb.1]
      rw [abs_of_nonpos (by linarith)]
      nlinarith [hkey, hcc, hy2, hy4]
    · unfold calculateBoatSpeed
      rw [normAngle_of_le (by linarith) (by linarith),
        calcBSAngle_mid hup (by linarith)]
      have hden : (0 : ℝ) < 90 - getUpwindTWA w := by linarith
      set t := (a - getUpwindTWA w) / (90 - getUpwindTWA w) with ht
      have ht0 : 0 ≤ t := div_nonneg (by linarith) hden.le
      have ht1 : t ≤ 1 / 40000 := by
        rw [ht, div_le_div_iff₀ hden (by norm_num)]
        nlinarith
      have hs0 := smoothStep_nonneg ht0 (by linarith)
      have hs3 := smoothStep_le_three_sq ht0
      have ht2 : t ^ 2 ≤ 1 / 40000 * (1 / 40000) := by nlinarith
      have hbs : baseMaxSpeed w * smoothStep t ≤ 8.5 * smoothStep t :=
        mul_le_mul_of_nonneg_right hb1 hs0
      have hbs0 : 0 ≤ baseMaxSpeed w * smoothStep t :=
        mul_nonneg (by linarith) hs0
      rw [abs_of_nonneg (by nlinarith [hbs0])]
      nlinarith [hbs, hbs0, hs3, ht2]
  · -- boundary at 90°
    intro a ha
    rw [abs_le] at ha
    rw [calcBS_at_90]
    rcases le_or_lt a 90 with h90 | h90
    · unfold calculateBoatSpeed
      rw [normAngle_of_le (by linarith) (by linarith),
        calcBSAngle_mid (by linarith) h90]
      have hden : (0 : ℝ) < 90 - getUpwindTWA w := by linarith
      set t := (a - getUpwindTWA w) / (90 - getUpwindTWA w) with ht
      have ht0 : 0 ≤ t := div_nonneg (by linarith) hden.le
      have ht1 : t ≤ 1 := (div_le_one hden).mpr (by linarith)
      have htlow : 1 - t ≤ 1 / 40000 := by
        have : 1 - t = (90 - a) / (90 - getUpwindTWA w) := by
          rw [ht]; field_simp
        rw [this, div_le_div_iff₀ hden (by norm_num)]
        nlinarith
      have hs1 := smoothStep_le_one ht0 ht1
      have hs2 := one_sub_smoothStep_le ht1
      have htsq : (1 - t) ^ 2 ≤ 1 / 40000 * (1 / 40000) := by nlinarith
      have hs1m : 0 ≤ 1 - smoothStep t := by linarith
      have hbs : baseMaxSpeed w * (1 - smoothStep t) ≤
          8.5 * (1 - smoothStep t) :=
        mul_le_mul_of_nonneg_right hb1 hs1m
      have hbs0 : 0 ≤ baseMaxSpeed w * (1 - smoothStep t) :=
        mul_nonneg (by linarith) hs1m
      rw [abs_of_nonpos (by nlinarith [hbs0])]
      nlinarith [hbs, hbs0, hs2, htsq]
    · unfold calculateBoatSpeed
      rw [normAngle_of_le (by linarith) (by linarith), calcBSAngle_down h90]
      set t := (a - 90) / 90 with ht
      have ht0 : 0 ≤ t := div_nonneg (by linarith) (by norm_num)
      have ht1 : t ≤ 1 / 90000 := by
        rw [ht, div_le_div_iff₀ (by norm_num) (by norm_num)]
        nlinarith
      have hs0 := smoothStep_nonneg ht0 (by linarith)
      have hs3 := smoothStep_le_three_sq ht0
      have ht2 : t ^ 2 ≤ 1 / 90000 * (1 / 90000) := by nlinarith
      have hbs : baseMaxSpeed w * smoothStep t ≤ 8.5 * smoothStep t :=
        mul_le_mul_of_nonneg_right hb1 hs0
      have hbs0 : 0 ≤ baseMaxSpeed w * smoothStep t :=
        mul_nonneg (by linarith) hs0
      rw [abs_le]
      constructor <;> split_ifs <;> nlinarith [hbs, hbs0, hs3, ht2]

/-- Witness for C3: at wind 12 kn, 20° is inside the no-go zone. -/
theorem claim3_witness : calculateBoatSpeed 20 12 = 0 :=
  (claim3 12 (by norm_num)).1 20 (by norm_num) (by norm_num)

/-- C8: `intersectLines` returns `none` whenever the direction
determinant is within the 1e-4 tolerance — in particular for two lines
with identical compass angles — and returns the origin for two
perpendicular lines through the origin. -/
theorem claim8 :
    (∀ (p1 : Point) (a1 : ℝ) (p2 : Point) (a2 : ℝ),
      |lineDet a1 a2| < 0.0001 → intersectLines p1 a1 p2 a2 = none) ∧
    (∀ (p1 p2 : Point) (a : ℝ), intersectLines p1 a p2 a = none) ∧
    (∀ a : ℝ, intersectLines ⟨0, 0⟩ a ⟨0, 0⟩ (a + 90) =
      some ⟨0, 0⟩) := by
  have hdet_same : ∀ a : ℝ, lineDet a a = 0 := by
    intro a
    unfold lineDet
    ring
  have hdet_perp : ∀ a : ℝ, lineDet a (a + 90) = 1 := by
    intro a
    unfold lineDet toRadians
    have h : (a + 90) * Real.pi / 180 = a * Real.pi / 180 + Real.pi / 2 := by
      ring
    rw [h, Real.sin_add_pi_div_two, Real.cos_add_pi_div_two]
    have := Real.sin_sq_add_cos_sq (a * Real.pi / 180)
    nlinarith
  refine ⟨?_, ?_, ?_⟩
  · intro p1 a1 p2 a2 h
    unfold intersectLines
    rw [if_pos h]
  · intro p1 p2 a
    unfold intersectLines
    rw [if_pos (by rw [hdet_same]; norm_num)]
  · intro a
    unfold intersectLines
    rw [if_neg (by rw [hdet_perp]; norm_num)]
    simp only [hdet_perp]
    norm_num

/-- Witness for C8: two parallel lines at angle 0 through distinct
points do not intersect. -/
theorem claim8_witness : intersectLines ⟨0, 0⟩ 0 ⟨1, 1⟩ 0 = none :=
  claim8.2.1 ⟨0, 0⟩ ⟨1, 1⟩ 0

/-! ### jsMod and atan2 lemmas -/

theorem jsMod_eq_self {a : ℝ} (h0 : 0 ≤ a) (h1 : a < 360) :
    jsMod a 360 = a := by
  unfold jsMod
  rw [if_pos (div_nonneg h0 (by norm_num))]
  have hf : ⌊a / 360⌋ = 0 := by
    rw [Int.floor_eq_iff]
    constructor
    · push_cast
      positivity
    · push_cast
      rw [div_lt_iff₀ (by norm_num : (0 : ℝ) < 360)]
      linarith
  rw [hf]
  push_cast
  ring

theorem jsMod_eq_sub {a : ℝ} (h0 : 360 ≤ a) (h1 : a < 720) :
    jsMod a 360 = a - 360 := by
  unfold jsMod
  rw [if_pos (div_nonneg (by linarith) (by norm_num))]
  have hf : ⌊a / 360⌋ = 1 := by
    rw [Int.floor_eq_iff]
    constructor
    · push_cast
      rw [le_div_iff₀ (by norm_num : (0 : ℝ) < 360)]
      linarith
    · push_cast
      rw [div_lt_iff₀ (by norm_num : (0 : ℝ) < 360)]
      linarith
  rw [hf]
  push_cast
  ring

theorem jsMod_bounds (a : ℝ) : -360 < jsMod a 360 ∧ jsMod a 360 < 360 := by
  unfold jsMod
  split_ifs with h
  · have h1 := Int.sub_one_lt_floor (a / 360)
    have h2 := Int.floor_le (a / 360)
    constructor <;> nlinarith
  · push_neg at h
    have h1 := Int.le_ceil (a / 360)
    have h2 := Int.ceil_lt_add_one (a / 360)
    constructor <;> nlinarith

theorem jsMod_sub_int (a : ℝ) : ∃ k : ℤ, a - jsMod a 360 = 360 * k := by
  unfold jsMod
  split_ifs
  · exact ⟨⌊a / 360⌋, by ring⟩
  · exact ⟨⌈a / 360⌉, by ring⟩

theorem toDegrees_toRadians (d : ℝ) : toDegrees (toRadians d) = d := by
  unfold toDegrees toRadians
  have := Real.pi_ne_zero
  field_simp

/-- `Math.atan2` applied to a positively scaled unit vector recovers
the complex argument of the unit vector. -/
theorem atan2_scaled {s x : ℝ} (hs : 0 < s) :
    atan2 (s * Real.sin x) (s * Real.cos x) =
      Complex.arg (Real.cos x + Real.sin x * Complex.I) := by
  unfold atan2
  have hmk : Complex.mk (s * Real.cos x) (s * Real.sin x) =
      (s : ℂ) * (Real.cos x + Real.sin x * Complex.I) := by
    rw [Complex.mk_eq_add_mul_I]
    push_cast
    ring
  rw [hmk, Complex.arg_real_mul _ hs]

/-- The argument of `(cos θ, sin θ)` is `θ` shifted into `(-π, π]` by
an integer multiple of `2π`. -/
theorem arg_cos_sin_eq (θ : ℝ) :
    Complex.arg (Real.cos θ + Real.sin θ * Complex.I) =
      θ + 2 * Real.pi * ⌊(Real.pi - θ) / (2 * Real.pi)⌋ := by
  have h := Complex.arg_cos_add_sin_mul_I_sub θ
  push_cast at h ⊢
  linarith

theorem twa_of_tackingAngles (windDir windSpeed : ℝ) :
    (getTackingAngles windDir windSpeed).twa = getUpwindTWA windSpeed := rfl

theorem getGroundVector_heading (wd ws cd cs : ℝ) (tk : Tack) :
    (getGroundVector wd ws cd cs tk).heading = headingOf wd ws tk := rfl

theorem getGroundVector_sog (wd ws cd cs : ℝ) (tk : Tack) :
    (getGroundVector wd ws cd cs tk).sog =
      Real.sqrt ((groundVel wd ws cd cs tk).1 ^ 2 +
        (groundVel wd ws cd cs tk).2 ^ 2) := rfl

theorem getGroundVector_cog (wd ws cd cs : ℝ) (tk : Tack) :
    (getGroundVector wd ws cd cs tk).cog =
      (if toDegrees (atan2 (groundVel wd ws cd cs tk).1
          (groundVel wd ws cd cs tk).2) < 0 then
        toDegrees (atan2 (groundVel wd ws cd cs tk).1
          (groundVel wd ws cd cs tk).2) + 360
      else
        toDegrees (atan2 (groundVel wd ws cd cs tk).1
          (groundVel wd ws cd cs tk).2)) := rfl

/-- C7: with zero current the speed over ground equals the boat speed
at the upwind TWA and the course over ground equals the heading modulo
360°. -/
theorem claim7 (windDir windSpeed currentDir : ℝ) (tack : Tack)
    (hw : 0 ≤ windSpeed) :
    (getGroundVector windDir windSpeed currentDir 0 tack).sog =
      calculateBoatSpeed (getUpwindTWA windSpeed) windSpeed ∧
    ∃ k : ℤ, (getGroundVector windDir windSpeed currentDir 0 tack).cog -
      (getGroundVector windDir windSpeed currentDir 0 tack).heading =
        360 * k := by
  have hπ := Real.pi_pos
  have hbs : calculateBoatSpeed (getUpwindTWA windSpeed) windSpeed =
      baseMaxSpeed windSpeed := calcBS_at_opt windSpeed
  have hb0 : 0 < calculateBoatSpeed (getUpwindTWA windSpeed) windSpeed := by
    rw [hbs]
    have := le_baseMaxSpeed hw
    linarith
  set bs := calculateBoatSpeed (getUpwindTWA windSpeed) windSpeed with hbsdef
  set h := headingOf windDir windSpeed tack with hhdef
  set θ := toRadians h with hθdef
  have hg : groundVel windDir windSpeed currentDir 0 tack =
      (bs * Real.sin θ, bs * Real.cos θ) := by
    unfold groundVel
    rw [twa_of_tackingAngles]
    simp [hbsdef, hθdef, hhdef]
  constructor
  · rw [getGroundVector_sog, hg]
    have hsq : (bs * Real.sin θ) ^ 2 + (bs * Real.cos θ) ^ 2 = bs ^ 2 := by
      have hpyth := Real.sin_sq_add_cos_sq θ
      nlinarith
    dsimp only
    rw [hsq, Real.sqrt_sq hb0.le]
  · set k : ℤ := ⌊(Real.pi - θ) / (2 * Real.pi)⌋ with hkdef
    have harg : atan2 (bs * Real.sin θ) (bs * Real.cos θ) =
        θ + 2 * Real.pi * k := by
      rw [atan2_scaled hb0, arg_cos_sin_eq]
    have hdeg : toDegrees (θ + 2 * Real.pi * k) = h + 360 * k := by
      unfold toDegrees
      rw [hθdef]
      unfold toRadians
      field_simp
      ring
    rw [getGroundVector_cog, getGroundVector_heading, hg]
    dsimp only
    rw [harg, hdeg]
    split_ifs
    · exact ⟨k + 1, by push_cast; ring⟩
    · exact ⟨k, by ring⟩

/-- Witness for C7 with wind 0°/12 kn, port tack. -/
theorem claim7_witness :
    (getGroundVector 0 12 0 0 .port).sog =
      calculateBoatSpeed (getUpwindTWA 12) 12 ∧
    ∃ k : ℤ, (getGroundVector 0 12 0 0 .port).cog -
      (getGroundVector 0 12 0 0 .port).heading = 360 * k :=
  claim7 0 12 0 .port (by norm_num)

/-- C10: `getGroundVector` always returns a course over ground in
[0, 360) and a non-negative speed over ground; when the through-water
and current velocities cancel exactly it returns `cog = 0`, `sog = 0`. -/
theorem claim10 (windDir windSpeed currentDir currentSpeed : ℝ)
    (tack : Tack) (hw : 0 ≤ windSpeed) (hc : 0 ≤ currentSpeed) :
    0 ≤ (getGroundVector windDir windSpeed currentDir currentSpeed tack).cog ∧
    (getGroundVector windDir windSpeed currentDir currentSpeed tack).cog <
      360 ∧
    0 ≤ (getGroundVector windDir windSpeed currentDir currentSpeed tack).sog ∧
    (groundVel windDir windSpeed currentDir currentSpeed tack = (0, 0) →
      (getGroundVector windDir windSpeed currentDir currentSpeed tack).cog =
        0 ∧
      (getGroundVector windDir windSpeed currentDir currentSpeed tack).sog =
        0) := by
  have hπ := Real.pi_pos
  have hπ4 := Real.pi_le_four
  set g := groundVel windDir windSpeed currentDir currentSpeed tack with hgdef
  have harg := Complex.arg_mem_Ioc (Complex.mk g.2 g.1)
  rw [Set.mem_Ioc] at harg
  have hdeg0 : -180 < toDegrees (atan2 g.1 g.2) := by
    unfold toDegrees atan2
    rw [neg_lt, ← neg_div, ← neg_mul]
    rw [div_lt_iff₀ hπ]
    nlinarith [harg.1]
  have hdeg1 : toDegrees (atan2 g.1 g.2) ≤ 180 := by
    unfold toDegrees atan2
    rw [div_le_iff₀ hπ]
    nlinarith [harg.2]
  refine ⟨?_, ?_, ?_, ?_⟩
  · rw [getGroundVector_cog]
    split_ifs with hneg
    · linarith
    · linarith [not_lt.mp hneg]
  · rw [getGroundVector_cog]
    split_ifs with hneg
    · linarith
    · linarith
  · rw [getGroundVector_sog]
    exact Real.sqrt_nonneg _
  · intro hzero
    have hg1 : g.1 = 0 := by rw [hzero]
    have hg2 : g.2 = 0 := by rw [hzero]
    have hatan : atan2 g.1 g.2 = 0 := by
      unfold atan2
      rw [hg1, hg2]
      have hmk0 : Complex.mk 0 0 = 0 := by
        rw [Complex.mk_eq_add_mul_I]
        push_cast
        ring
      rw [hmk0, Complex.arg_zero]
    have hdeg : toDegrees (atan2 g.1 g.2) = 0 := by
      rw [hatan]
      unfold toDegrees
      simp
    constructor
    · rw [getGroundVector_cog, if_neg (by rw [hdeg]; norm_num)]
      exact hdeg
    · rw [getGroundVector_sog, hg1, hg2]
      simp

/-- Witness for C10 with wind 0°/12 kn, current 90°/2 kn, stbd tack. -/
theorem claim10_witness :
    0 ≤ (getGroundVector 0 12 90 2 .stbd).cog ∧
    (getGroundVector 0 12 90 2 .stbd).cog < 360 ∧
    0 ≤ (getGroundVector 0 12 90 2 .stbd).sog ∧
    (groundVel 0 12 90 2 .stbd = (0, 0) →
      (getGroundVector 0 12 90 2 .stbd).cog = 0 ∧
      (getGroundVector 0 12 90 2 .stbd).sog = 0) :=
  claim10 0 12 90 2 .stbd (by norm_num) (by norm_num)

/-! ### Ladder-rung claims -/

/-- A configuration with `courseLength = 1000` and ladder rungs shown
(wind from the north, no current, no bias, no mark shift). -/
def rungsCfg : CourseConfig :=
  ⟨0, 12, 0, 0, 0, 1000, 200, 0, 0, true, true, true, false⟩

theorem rungsCfg_scale : scaleOf rungsCfg 800 150 = 1 / 28 := by
  unfold scaleOf
  rw [show rungsCfg.courseLength = (1000 : ℝ) from rfl,
    min_eq_right (by norm_num : (150 : ℝ) - 2 * 50 ≤ 800 - 2 * 50)]
  norm_num

theorem rungsCfg_endpoints (i : ℕ) :
    rungEndpoints rungsCfg 800 150 i =
      (⟨400 + 500 / 7, 127.5 - (1000 - i * 100) / 28⟩,
        ⟨400 - 500 / 7, 127.5 - (1000 - i * 100) / 28⟩) := by
  have h180 : toRadians (rungsCfg.windDirection + 180) = Real.pi := by
    show toRadians (0 + 180) = Real.pi
    unfold toRadians
    ring
  have h90 : toRadians (rungsCfg.windDirection + 90) = Real.pi / 2 := by
    show toRadians (0 + 90) = Real.pi / 2
    unfold toRadians
    ring
  have h270 : toRadians (rungsCfg.windDirection + 90 + 180) =
      Real.pi / 2 + Real.pi := by
    show toRadians (0 + 90 + 180) = Real.pi / 2 + Real.pi
    unfold toRadians
    ring
  unfold rungEndpoints projectPoint toScreen markLocWorld
  dsimp only
  rw [h180, h90, h270, rungsCfg_scale, Real.sin_pi, Real.cos_pi,
    Real.sin_add_pi, Real.cos_add_pi, Real.sin_pi_div_two,
    Real.cos_pi_div_two]
  simp only [rungsCfg, Prod.mk.injEq, Point.mk.injEq]
  norm_num
  ring

theorem rungsCfg_intersections (i : ℕ) :
    rungIntersections rungsCfg 800 150 i = [] := by
  unfold rungIntersections
  rw [rungsCfg_endpoints i]
  norm_num

theorem rungsCfg_mkRung (i : ℕ) : mkRung rungsCfg 800 150 i = none := by
  unfold mkRung
  rw [rungsCfg_intersections i, List.mergeSort_nil]

/-- C6 fails on the code: a rung is emitted only when its clipped
segment reaches the padded viewport rectangle's boundary. In an 800×150
viewport the scale is 1/28 and every rung segment stays strictly inside
the horizontal bounds while being exactly horizontal, so zero rungs are
emitted although `ceil(1100/100)+1 = 12` candidates are iterated. -/
theorem claim6_counterexample :
    (numRungs rungsCfg + 1).toNat = 12 ∧
    (ladderRungs rungsCfg 800 150).length = 0 := by
  have hnum : numRungs rungsCfg = 11 := by
    unfold numRungs
    rw [show rungsCfg.courseLength * 1.1 / 100 = ((11 : ℤ) : ℝ) by
      show (1000 : ℝ) * 1.1 / 100 = ((11 : ℤ) : ℝ)
      push_cast
      norm_num]
    exact Int.ceil_intCast 11
  have hshow : rungsCfg.showLadderRungs = true := rfl
  refine ⟨by rw [hnum]; rfl, ?_⟩
  unfold ladderRungs
  rw [if_pos hshow,
    List.filterMap_eq_nil_iff.mpr (fun i _ => rungsCfg_mkRung i)]
  rfl

/-- C6 amended: the loop iterates over `ceil(courseLength·1.1/100)+1`
candidate rungs (12 for `courseLength = 1000`) and emits at most that
many — exactly those whose segment crosses the viewport rectangle's
boundary; the candidate rung at distance 0 is centered on the mark
(its endpoints' midpoint is the mark's screen position). -/
theorem claim6_amended (cfg : CourseConfig) (width height : ℝ)
    (h : cfg.showLadderRungs = true) :
    (ladderRungs cfg width height).length ≤ (numRungs cfg + 1).toNat ∧
    (cfg.courseLength = 1000 → (numRungs cfg + 1).toNat = 12) ∧
    ((rungEndpoints cfg width height 0).1.x +
        (rungEndpoints cfg width height 0).2.x =
      2 * (toScreen cfg width height (markLocWorld cfg)).x ∧
      (rungEndpoints cfg width height 0).1.y +
        (rungEndpoints cfg width height 0).2.y =
      2 * (toScreen cfg width height (markLocWorld cfg)).y) := by
  refine ⟨?_, ?_, ?_⟩
  · unfold ladderRungs
    rw [if_pos h]
    calc ((List.range (numRungs cfg + 1).toNat).filterMap
          (mkRung cfg width height)).length
        ≤ (List.range (numRungs cfg + 1).toNat).length :=
          List.length_filterMap_le _ _
      _ = (numRungs cfg + 1).toNat := List.length_range _
  · intro hL
    have hnum : numRungs cfg = 11 := by
      unfold numRungs
      rw [hL, show (1000 : ℝ) * 1.1 / 100 = ((11 : ℤ) : ℝ) by
        push_cast
        norm_num]
      exact Int.ceil_intCast 11
    rw [hnum]
    rfl
  · have hshift : toRadians (cfg.windDirection + 90 + 180) =
        toRadians (cfg.windDirection + 90) + Real.pi := by
      unfold toRadians
      ring
    unfold rungEndpoints projectPoint toScreen
    dsimp only
    rw [hshift, Real.sin_add_pi, Real.cos_add_pi]
    push_cast
    constructor <;> ring

/-- Witness for the amended C6 in an 800×600 viewport. -/
theorem claim6_witness :
    (ladderRungs rungsCfg 800 600).length ≤ (numRungs rungsCfg + 1).toNat ∧
    (rungsCfg.courseLength = 1000 → (numRungs rungsCfg + 1).toNat = 12) ∧
    ((rungEndpoints rungsCfg 800 600 0).1.x +
        (rungEndpoints rungsCfg 800 600 0).2.x =
      2 * (toScreen rungsCfg 800 600 (markLocWorld rungsCfg)).x ∧
      (rungEndpoints rungsCfg 800 600 0).1.y +
        (rungEndpoints rungsCfg 800 600 0).2.y =
      2 * (toScreen rungsCfg 800 600 (markLocWorld rungsCfg)).y) :=
  claim6_amended rungsCfg 800 600 rfl

/-! ### Layline-corner claims -/

/-- With no current and a heading already in `[0, 360)`, the course
over ground returned by `getGroundVector` is exactly the heading. -/
theorem cog_exact_zero_current (wd ws cd : ℝ) (tk : Tack) (hw : 0 ≤ ws)
    (h0 : 0 ≤ headingOf wd ws tk) (h1 : headingOf wd ws tk < 360) :
    (getGroundVector wd ws cd 0 tk).cog = headingOf wd ws tk := by
  have hπ := Real.pi_pos
  have hbs : calculateBoatSpeed (getUpwindTWA ws) ws = baseMaxSpeed ws :=
    calcBS_at_opt ws
  have hb0 : 0 < calculateBoatSpeed (getUpwindTWA ws) ws := by
    rw [hbs]
    have := le_baseMaxSpeed hw
    linarith
  set bs := calculateBoatSpeed (getUpwindTWA ws) ws with hbsdef
  set h := headingOf wd ws tk with hhdef
  set θ := toRadians h with hθdef
  have hθval : θ = h * Real.pi / 180 := rfl
  have hg : groundVel wd ws cd 0 tk = (bs * Real.sin θ, bs * Real.cos θ) := by
    unfold groundVel
    rw [twa_of_tackingAngles]
    simp [hbsdef, hθdef, hhdef]
  rw [getGroundVector_cog, hg]
  dsimp only
  rcases le_or_lt h 180 with h180 | h180
  · have hk : ⌊(Real.pi - θ) / (2 * Real.pi)⌋ = 0 := by
      rw [Int.floor_eq_iff]
      constructor
      · push_cast
        rw [le_div_iff₀ (by linarith)]
        nlinarith
      · push_cast
        rw [div_lt_iff₀ (by linarith)]
        nlinarith
    rw [atan2_scaled hb0, arg_cos_sin_eq, hk]
    have : θ + 2 * Real.pi * ((0 : ℤ) : ℝ) = θ := by push_cast; ring
    rw [this, hθdef, toDegrees_toRadians, if_neg (not_lt.mpr h0)]
  · have hk : ⌊(Real.pi - θ) / (2 * Real.pi)⌋ = -1 := by
      rw [Int.floor_eq_iff]
      constructor
      · push_cast
        rw [le_div_iff₀ (by linarith)]
        nlinarith
      · push_cast
        rw [div_lt_iff₀ (by linarith)]
        nlinarith
    rw [atan2_scaled hb0, arg_cos_sin_eq, hk]
    have hdeg : toDegrees (θ + 2 * Real.pi * ((-1 : ℤ) : ℝ)) = h - 360 := by
      unfold toDegrees
      rw [hθval]
      push_cast
      field_simp
      ring
    rw [hdeg, if_pos (by linarith)]
    ring

/-- C4: the degenerate-case policy of the layline corners. If the port
mark-layline's X-intercept at water level exceeds the pin's X, or the
left intersection lies behind the start line, the left corner collapses
to the pin; symmetrically for the starboard layline and the RC boat. -/
theorem claim4 (cfg : CourseConfig) :
    ((((pinLocWorld cfg).x : EReal) <
        getXAtY0 (markPortLaylineAngle cfg) cfg.courseLength ∨
      (∃ p, leftIntersection cfg = some p ∧ p.y < 0)) →
      leftCornerWorld cfg = some (pinLocWorld cfg)) ∧
    ((getXAtY0 (markStbdLaylineAngle cfg) cfg.courseLength <
        ((rcLocWorld cfg).x : EReal) ∨
      (∃ p, rightIntersection cfg = some p ∧ p.y < 0)) →
      rightCornerWorld cfg = some (rcLocWorld cfg)) := by
  constructor
  · intro hcond
    unfold leftCornerWorld
    rcases hcond with hx | ⟨p, hp, hpy⟩
    · rw [if_pos hx]
      dsimp only
      split_ifs <;> rfl
    · by_cases hx : ((pinLocWorld cfg).x : EReal) <
          getXAtY0 (markPortLaylineAngle cfg) cfg.courseLength
      · rw [if_pos hx]
        dsimp only
        split_ifs <;> rfl
      · rw [if_neg hx, hp]
        dsimp only
        rw [if_pos hpy]
  · intro hcond
    unfold rightCornerWorld
    rcases hcond with hx | ⟨p, hp, hpy⟩
    · rw [if_pos hx]
      dsimp only
      split_ifs <;> rfl
    · by_cases hx : getXAtY0 (markStbdLaylineAngle cfg) cfg.courseLength <
          ((rcLocWorld cfg).x : EReal)
      · rw [if_pos hx]
        dsimp only
        split_ifs <;> rfl
      · rw [if_neg hx, hp]
        dsimp only
        rw [if_pos hpy]

/-- A degenerate configuration: wind 0°/20 kn, no current, start line
4000 m long, course 1000 m. The port mark layline meets the water level
well inside the start line, so the left corner collapses to the pin. -/
def degenCfg : CourseConfig :=
  ⟨0, 20, 0, 0, 0, 1000, 4000, 0, 0, true, true, true, false⟩

theorem twa20 : getUpwindTWA 20 = 38 := by
  unfold getUpwindTWA
  norm_num

theorem degen_port_heading : headingOf 0 20 .port = 38 := by
  unfold headingOf
  rw [twa_of_tackingAngles, twa20]
  show jsMod (0 + 38) 360 = 38
  rw [show (0 : ℝ) + 38 = 38 by norm_num]
  exact jsMod_eq_self (by norm_num) (by norm_num)

theorem degen_port_cog : (portData degenCfg).cog = 38 := by
  show (getGroundVector 0 20 0 0 .port).cog = 38
  rw [cog_exact_zero_current 0 20 0 .port (by norm_num)
    (by rw [degen_port_heading]; norm_num)
    (by rw [degen_port_heading]; norm_num), degen_port_heading]

theorem degen_markPortAngle : markPortLaylineAngle degenCfg = 218 := by
  unfold markPortLaylineAngle
  rw [degen_port_cog]
  rw [show (38 : ℝ) + 180 = 218 by norm_num]
  exact jsMod_eq_self (by norm_num) (by norm_num)

theorem degen_pin : pinLocWorld degenCfg = ⟨-2000, 0⟩ := by
  unfold pinLocWorld rotatePoint
  have h0 : toRadians degenCfg.startLineBias = 0 := by
    show toRadians 0 = 0
    unfold toRadians
    ring
  dsimp only
  rw [h0, Real.cos_zero, Real.sin_zero]
  simp only [degenCfg, Point.mk.injEq]
  norm_num

/-- Bounds on cos and tan at 38°. -/
theorem cos38_gt : 1 / 2 < Real.cos (38 * Real.pi / 180) := by
  have hπ := Real.pi_pos
  have h := Real.cos_lt_cos_of_nonneg_of_le_pi
    (show 0 ≤ 38 * Real.pi / 180 by positivity)
    (show Real.pi / 3 ≤ Real.pi by linarith)
    (show 38 * Real.pi / 180 < Real.pi / 3 by nlinarith)
  rw [Real.cos_pi_div_three] at h
  exact h

theorem tan38_lt_one : Real.tan (38 * Real.pi / 180) < 1 := by
  have hπ := Real.pi_pos
  have h := Real.tan_lt_tan_of_nonneg_of_lt_pi_div_two
    (show 0 ≤ 38 * Real.pi / 180 by positivity)
    (show Real.pi / 4 < Real.pi / 2 by linarith)
    (show 38 * Real.pi / 180 < Real.pi / 4 by nlinarith)
  rw [Real.tan_pi_div_four] at h
  exact h

theorem tan38_nonneg : 0 ≤ Real.tan (38 * Real.pi / 180) := by
  have hπ := Real.pi_pos
  exact Real.tan_nonneg_of_nonneg_of_le_pi_div_two (by positivity)
    (by nlinarith)

theorem degen_xAtY0 : getXAtY0 (markPortLaylineAngle degenCfg)
    degenCfg.courseLength =
      ((-1000 * Real.tan (38 * Real.pi / 180) : ℝ) : EReal) := by
  rw [degen_markPortAngle]
  show getXAtY0 218 1000 = _
  unfold getXAtY0
  have hrad : toRadians 218 = 38 * Real.pi / 180 + Real.pi := by
    unfold toRadians
    ring
  rw [hrad, Real.cos_add_pi, Real.tan_periodic]
  rw [abs_neg, abs_of_pos (by linarith [cos38_gt])]
  rw [if_neg (by push_neg; linarith [cos38_gt])]

/-- Witness for C4: in `degenCfg` the port layline's X-intercept at
water level (≈ -781 m) exceeds the pin's X (-2000 m), so the left
corner collapses to the pin. -/
theorem claim4_witness :
    leftCornerWorld degenCfg = some (pinLocWorld degenCfg) :=
  (claim4 degenCfg).1 (Or.inl (by
    rw [degen_xAtY0, degen_pin]
    rw [EReal.coe_lt_coe_iff]
    linarith [tan38_lt_one, tan38_nonneg]))

/-! ### Numeric enclosures of sin, cos and tan at 38° -/

theorem sin19_bounds :
    0.3249 < Real.sin (19 * Real.pi / 180) ∧
      Real.sin (19 * Real.pi / 180) < 0.32617 := by
  have hπl : 3.141592 < Real.pi := Real.pi_gt_d6
  have hπu : Real.pi < 3.141593 := Real.pi_lt_d6
  set t := 19 * Real.pi / 180 with ht
  have ht0 : 0.331612 < t := by rw [ht]; nlinarith
  have ht1 : t < 0.331613 := by rw [ht]; nlinarith
  have hsb := Real.sin_bound (show |t| ≤ 1 by
    rw [abs_of_pos (by linarith)]; linarith)
  rw [abs_of_pos (by linarith : (0 : ℝ) < t), abs_le] at hsb
  have ht2l : 0.1099665 < t ^ 2 := by nlinarith
  have ht2u : t ^ 2 < 0.1099672 := by nlinarith
  have ht3l : 0.0364662 < t ^ 3 := by nlinarith
  have ht3u : t ^ 3 < 0.0364666 := by nlinarith
  have ht4u : t ^ 4 < 0.0120928 := by nlinarith
  have ht4l : 0 < t ^ 4 := by positivity
  constructor <;> nlinarith [hsb.1, hsb.2]

theorem cos19_bounds :
    0.94438 < Real.cos (19 * Real.pi / 180) ∧
      Real.cos (19 * Real.pi / 180) < 0.94565 := by
  have hπl : 3.141592 < Real.pi := Real.pi_gt_d6
  have hπu : Real.pi < 3.141593 := Real.pi_lt_d6
  set t := 19 * Real.pi / 180 with ht
  have ht0 : 0.331612 < t := by rw [ht]; nlinarith
  have ht1 : t < 0.331613 := by rw [ht]; nlinarith
  have hcb := Real.cos_bound (show |t| ≤ 1 by
    rw [abs_of_pos (by linarith)]; linarith)
  rw [abs_of_pos (by linarith : (0 : ℝ) < t), abs_le] at hcb
  have ht2l : 0.1099665 < t ^ 2 := by nlinarith
  have ht2u : t ^ 2 < 0.1099672 := by nlinarith
  have ht4u : t ^ 4 < 0.0120928 := by nlinarith
  have ht4l : 0 < t ^ 4 := by positivity
  constructor <;> nlinarith [hcb.1, hcb.2]

theorem sin38_bounds :
    0.6136 < Real.sin (38 * Real.pi / 180) ∧
      Real.sin (38 * Real.pi / 180) < 0.6169 := by
  have h19s := sin19_bounds
  have h19c := cos19_bounds
  have hrw : (38 : ℝ) * Real.pi / 180 = 2 * (19 * Real.pi / 180) := by ring
  rw [hrw, Real.sin_two_mul]
  constructor <;> nlinarith [h19s.1, h19s.2, h19c.1, h19c.2]

theorem cos38_bounds :
    0.7872 < Real.cos (38 * Real.pi / 180) ∧
      Real.cos (38 * Real.pi / 180) < 0.7889 := by
  have h19s := sin19_bounds
  have hpyth := Real.sin_sq_add_cos_sq (19 * Real.pi / 180)
  have hrw : (38 : ℝ) * Real.pi / 180 = 2 * (19 * Real.pi / 180) := by ring
  rw [hrw, Real.cos_two_mul']
  have hs2l : 0.10556 < Real.sin (19 * Real.pi / 180) ^ 2 := by
    nlinarith [h19s.1, h19s.2]
  have hs2u : Real.sin (19 * Real.pi / 180) ^ 2 < 0.1063875 := by
    nlinarith [h19s.1, h19s.2]
  constructor <;> nlinarith

theorem tan38_bounds :
    0.7777 < Real.tan (38 * Real.pi / 180) ∧
      Real.tan (38 * Real.pi / 180) < 0.7837 := by
  have hs := sin38_bounds
  have hc := cos38_bounds
  rw [Real.tan_eq_sin_div_cos]
  constructor
  · rw [lt_div_iff₀ (by linarith [hc.1])]
    nlinarith [hs.1, hc.2]
  · rw [div_lt_iff₀ (by linarith [hc.1])]
    nlinarith [hs.2, hc.1]

/-! ### The zone-containment failing input -/

/-- The failing configuration for zone containment: wind 0°/20 kn, no
current, 100 m start line, 1000 m course, mark shifted 900 m to the
right, zones shown. -/
def zonesCfg : CourseConfig :=
  ⟨0, 20, 0, 0, 0, 1000, 100, 0, 900, true, true, true, true⟩

theorem zones_pin : pinLocWorld zonesCfg = ⟨-50, 0⟩ := by
  unfold pinLocWorld rotatePoint
  have h0 : toRadians zonesCfg.startLineBias = 0 := by
    show toRadians 0 = 0
    unfold toRadians
    ring
  dsimp only
  rw [h0, Real.cos_zero, Real.sin_zero]
  simp only [zonesCfg, Point.mk.injEq]
  norm_num

theorem zones_rc : rcLocWorld zonesCfg = ⟨50, 0⟩ := by
  unfold rcLocWorld rotatePoint
  have h0 : toRadians zonesCfg.startLineBias = 0 := by
    show toRadians 0 = 0
    unfold toRadians
    ring
  dsimp only
  rw [h0, Real.cos_zero, Real.sin_zero]
  simp only [zonesCfg, Point.mk.injEq]
  norm_num

theorem zones_mark : markLocWorld zonesCfg = ⟨900, 1000⟩ := rfl

theorem stbd_heading20 : headingOf 0 20 .stbd = 322 := by
  unfold headingOf
  rw [twa_of_tackingAngles, twa20]
  show jsMod (0 - 38 + 360) 360 = 322
  rw [show (0 : ℝ) - 38 + 360 = 322 by norm_num]
  exact jsMod_eq_self (by norm_num) (by norm_num)

theorem stbd_cog20 : (getGroundVector 0 20 0 0 .stbd).cog = 322 := by
  rw [cog_exact_zero_current 0 20 0 .stbd (by norm_num)
    (by rw [stbd_heading20]; norm_num)
    (by rw [stbd_heading20]; norm_num), stbd_heading20]

theorem zones_markStbd : markStbdLaylineAngle zonesCfg = 142 := by
  unfold markStbdLaylineAngle
  have h : (stbdData zonesCfg).cog = 322 := stbd_cog20
  rw [h, show (322 : ℝ) + 180 = 502 by norm_num,
    jsMod_eq_sub (by norm_num) (by norm_num)]
  norm_num

theorem zones_markPort : markPortLaylineAngle zonesCfg = 218 := by
  unfold markPortLaylineAngle
  have h : (portData zonesCfg).cog = 38 := degen_port_cog
  rw [h, show (38 : ℝ) + 180 = 218 by norm_num]
  exact jsMod_eq_self (by norm_num) (by norm_num)

/-! Trigonometric values at the compass angles 38°, 142°, 218°, 322°. -/

theorem tor38 : toRadians 38 = 38 * Real.pi / 180 := rfl

theorem tor142 : toRadians 142 = Real.pi - 38 * Real.pi / 180 := by
  unfold toRadians
  ring

theorem tor180 : toRadians 180 = Real.pi := by
  unfold toRadians
  ring

theorem tor218 : toRadians 218 = 38 * Real.pi / 180 + Real.pi := by
  unfold toRadians
  ring

theorem tor322 : toRadians 322 = (Real.pi - 38 * Real.pi / 180) + Real.pi := by
  unfold toRadians
  ring

theorem sin142 : Real.sin (toRadians 142) = Real.sin (38 * Real.pi / 180) := by
  rw [tor142, Real.sin_pi_sub]

theorem cos142 : Real.cos (toRadians 142) = -Real.cos (38 * Real.pi / 180) := by
  rw [tor142, Real.cos_pi_sub]

theorem sin218 : Real.sin (toRadians 218) = -Real.sin (38 * Real.pi / 180) := by
  rw [tor218, Real.sin_add_pi]

theorem cos218 : Real.cos (toRadians 218) = -Real.cos (38 * Real.pi / 180) := by
  rw [tor218, Real.cos_add_pi]

theorem sin322 : Real.sin (toRadians 322) = -Real.sin (38 * Real.pi / 180) := by
  rw [tor322, Real.sin_add_pi, Real.sin_pi_sub]

theorem cos322 : Real.cos (toRadians 322) = Real.cos (38 * Real.pi / 180) := by
  rw [tor322, Real.cos_add_pi, Real.cos_pi_sub, neg_neg]

theorem tan142 : Real.tan (toRadians 142) = -Real.tan (38 * Real.pi / 180) := by
  rw [Real.tan_eq_sin_div_cos, sin142, cos142, Real.tan_eq_sin_div_cos,
    div_neg]

theorem tan218 : Real.tan (toRadians 218) = Real.tan (38 * Real.pi / 180) := by
  rw [tor218, Real.tan_periodic]

theorem xAtY0_142 : getXAtY0 142 1000 =
    ((1000 * Real.tan (38 * Real.pi / 180) : ℝ) : EReal) := by
  unfold getXAtY0
  rw [cos142, abs_neg, abs_of_pos (by linarith [cos38_bounds.1]),
    if_neg (by push_neg; linarith [cos38_bounds.1]), tan142]
  norm_num

theorem xAtY0_218 : getXAtY0 218 1000 =
    ((-1000 * Real.tan (38 * Real.pi / 180) : ℝ) : EReal) := by
  unfold getXAtY0
  rw [cos218, abs_neg, abs_of_pos (by linarith [cos38_bounds.1]),
    if_neg (by push_neg; linarith [cos38_bounds.1]), tan218]

theorem toRadians_toDegrees (r : ℝ) : toRadians (toDegrees r) = r := by
  unfold toRadians toDegrees
  have := Real.pi_ne_zero
  field_simp

theorem toRadians_add_360 (d : ℝ) :
    toRadians (d + 360) = toRadians d + 2 * Real.pi := by
  unfold toRadians
  ring

/-- Sine of the compass angle of the vector `frm → tgt`. -/
theorem sin_angleTo (frm tgt : Point) :
    Real.sin (toRadians (angleTo frm tgt)) = (tgt.x - frm.x) /
      Real.sqrt ((tgt.y - frm.y) ^ 2 + (tgt.x - frm.x) ^ 2) := by
  unfold angleTo
  dsimp only
  have hsq : (tgt.y - frm.y) * (tgt.y - frm.y) +
      (tgt.x - frm.x) * (tgt.x - frm.x) =
      (tgt.y - frm.y) ^ 2 + (tgt.x - frm.x) ^ 2 := by ring
  split_ifs
  · rw [toRadians_add_360, toRadians_toDegrees, Real.sin_add_two_pi]
    unfold atan2
    rw [Complex.sin_arg, Complex.abs_apply, Complex.normSq_mk, hsq]
  · rw [toRadians_toDegrees]
    unfold atan2
    rw [Complex.sin_arg, Complex.abs_apply, Complex.normSq_mk, hsq]

/-- Cosine of the compass angle of the vector `frm → tgt`. -/
theorem cos_angleTo (frm tgt : Point)
    (h : ¬(tgt.y - frm.y = 0 ∧ tgt.x - frm.x = 0)) :
    Real.cos (toRadians (angleTo frm tgt)) = (tgt.y - frm.y) /
      Real.sqrt ((tgt.y - frm.y) ^ 2 + (tgt.x - frm.x) ^ 2) := by
  have hz : Complex.mk (tgt.y - frm.y) (tgt.x - frm.x) ≠ 0 := by
    intro hc
    rw [Complex.ext_iff] at hc
    exact h ⟨hc.1, hc.2⟩
  unfold angleTo
  dsimp only
  have hsq : (tgt.y - frm.y) * (tgt.y - frm.y) +
      (tgt.x - frm.x) * (tgt.x - frm.x) =
      (tgt.y - frm.y) ^ 2 + (tgt.x - frm.x) ^ 2 := by ring
  split_ifs
  · rw [toRadians_add_360, toRadians_toDegrees, Real.cos_add_two_pi]
    unfold atan2
    rw [Complex.cos_arg hz, Complex.abs_apply, Complex.normSq_mk, hsq]
  · rw [toRadians_toDegrees]
    unfold atan2
    rw [Complex.cos_arg hz, Complex.abs_apply, Complex.normSq_mk, hsq]

/-- Tangent of the vector-sum bisector. -/
theorem tan_bisect (a1 a2 : ℝ) :
    Real.tan (toRadians (bisect a1 a2)) =
      (Real.sin (toRadians a1) + Real.sin (toRadians a2)) /
        (Real.cos (toRadians a1) + Real.cos (toRadians a2)) := by
  unfold bisect
  dsimp only
  split_ifs
  · rw [toRadians_add_360, toRadians_toDegrees,
      show atan2 (Real.sin (toRadians a1) + Real.sin (toRadians a2))
          (Real.cos (toRadians a1) + Real.cos (toRadians a2)) +
          2 * Real.pi =
        (atan2 (Real.sin (toRadians a1) + Real.sin (toRadians a2))
          (Real.cos (toRadians a1) + Real.cos (toRadians a2)) + Real.pi) +
          Real.pi by ring,
      Real.tan_periodic, Real.tan_periodic]
    unfold atan2
    rw [Complex.tan_arg]
  · rw [toRadians_toDegrees]
    unfold atan2
    rw [Complex.tan_arg]

theorem det_38_142 : lineDet 38 142 =
    2 * (Real.sin (38 * Real.pi / 180) * Real.cos (38 * Real.pi / 180)) := by
  unfold lineDet
  rw [tor38, sin142, cos142]
  ring

theorem det_322_218 : lineDet 322 218 =
    -(2 * (Real.sin (38 * Real.pi / 180) * Real.cos (38 * Real.pi / 180))) := by
  unfold lineDet
  rw [sin322, cos322, sin218, cos218]
  ring

theorem det_38_142_large : ¬ |lineDet 38 142| < 0.0001 := by
  rw [det_38_142,
    abs_of_pos (by nlinarith [sin38_bounds.1, cos38_bounds.1])]
  push_neg
  nlinarith [sin38_bounds.1, cos38_bounds.1]

theorem det_322_218_large : ¬ |lineDet 322 218| < 0.0001 := by
  rw [det_322_218, abs_neg,
    abs_of_pos (by nlinarith [sin38_bounds.1, cos38_bounds.1])]
  push_neg
  nlinarith [sin38_bounds.1, cos38_bounds.1]

theorem zones_rightInter : rightIntersection zonesCfg = some
    ⟨475 + 500 * (Real.sin (38 * Real.pi / 180) / Real.cos (38 * Real.pi / 180)),
      500 + 425 * (Real.cos (38 * Real.pi / 180) /
        Real.sin (38 * Real.pi / 180))⟩ := by
  have hs0 : (0 : ℝ) < Real.sin (38 * Real.pi / 180) := by
    linarith [sin38_bounds.1]
  have hc0 : (0 : ℝ) < Real.cos (38 * Real.pi / 180) := by
    linarith [cos38_bounds.1]
  unfold rightIntersection
  rw [show (portData zonesCfg).cog = 38 from degen_port_cog, zones_rc,
    zones_mark, zones_markStbd]
  unfold intersectLines
  dsimp only
  rw [if_neg det_38_142_large]
  simp only [Option.some.injEq, Point.mk.injEq]
  constructor
  · rw [det_38_142, sin142, cos142, tor38]
    field_simp
    ring
  · rw [det_38_142, sin142, cos142, tor38]
    field_simp
    ring

theorem zones_leftInter : leftIntersection zonesCfg = some
    ⟨425 - 500 * (Real.sin (38 * Real.pi / 180) / Real.cos (38 * Real.pi / 180)),
      500 - 475 * (Real.cos (38 * Real.pi / 180) /
        Real.sin (38 * Real.pi / 180))⟩ := by
  have hs0 : (0 : ℝ) < Real.sin (38 * Real.pi / 180) := by
    linarith [sin38_bounds.1]
  have hc0 : (0 : ℝ) < Real.cos (38 * Real.pi / 180) := by
    linarith [cos38_bounds.1]
  unfold leftIntersection
  rw [show (stbdData zonesCfg).cog = 322 from stbd_cog20, zones_pin,
    zones_mark, zones_markPort]
  unfold intersectLines
  dsimp only
  rw [if_neg det_322_218_large]
  simp only [Option.some.injEq, Point.mk.injEq]
  constructor
  · simp only [det_322_218, sin322, cos322, sin218, cos218]
    field_simp
    ring
  · simp only [det_322_218, sin322, cos322, sin218, cos218]
    field_simp
    ring

theorem zones_left : leftCornerWorld zonesCfg = some ⟨-50, 0⟩ := by
  have hs := sin38_bounds
  have hc := cos38_bounds
  have hs0 : (0 : ℝ) < Real.sin (38 * Real.pi / 180) := by linarith [hs.1]
  have hc0 : (0 : ℝ) < Real.cos (38 * Real.pi / 180) := by linarith [hc.1]
  have hcs : 500 < 475 * (Real.cos (38 * Real.pi / 180) /
      Real.sin (38 * Real.pi / 180)) := by
    rw [show 475 * (Real.cos (38 * Real.pi / 180) /
        Real.sin (38 * Real.pi / 180)) =
      475 * Real.cos (38 * Real.pi / 180) / Real.sin (38 * Real.pi / 180) by
        ring, lt_div_iff₀ hs0]
    nlinarith [hs.2, hc.1]
  unfold leftCornerWorld
  dsimp only
  rw [show zonesCfg.courseLength = (1000 : ℝ) from rfl, zones_markPort,
    xAtY0_218, zones_pin, zones_leftInter]
  dsimp only
  rw [if_neg (show ¬ (((-50 : ℝ) : EReal) <
      ((-1000 * Real.tan (38 * Real.pi / 180) : ℝ) : EReal)) by
    rw [EReal.coe_lt_coe_iff]
    push_neg
    nlinarith [tan38_bounds.1, tan38_bounds.2])]
  dsimp only
  rw [if_pos (show (500 : ℝ) - 475 * (Real.cos (38 * Real.pi / 180) /
      Real.sin (38 * Real.pi / 180)) < 0 by linarith)]

theorem zones_right : rightCornerWorld zonesCfg = some
    ⟨475 + 500 * (Real.sin (38 * Real.pi / 180) / Real.cos (38 * Real.pi / 180)),
      500 + 425 * (Real.cos (38 * Real.pi / 180) /
        Real.sin (38 * Real.pi / 180))⟩ := by
  have hs := sin38_bounds
  have hc := cos38_bounds
  have hs0 : (0 : ℝ) < Real.sin (38 * Real.pi / 180) := by linarith [hs.1]
  have hc0 : (0 : ℝ) < Real.cos (38 * Real.pi / 180) := by linarith [hc.1]
  have hcs0 : 0 < Real.cos (38 * Real.pi / 180) /
      Real.sin (38 * Real.pi / 180) := div_pos hc0 hs0
  unfold rightCornerWorld
  dsimp only
  rw [show zonesCfg.courseLength = (1000 : ℝ) from rfl, zones_markStbd,
    xAtY0_142, zones_rc, zones_rightInter]
  dsimp only
  rw [if_neg (show ¬ (((1000 * Real.tan (38 * Real.pi / 180) : ℝ) : EReal) <
      ((50 : ℝ) : EReal)) by
    rw [EReal.coe_lt_coe_iff]
    push_neg
    nlinarith [tan38_bounds.1])]
  dsimp only
  rw [if_neg (show ¬ ((500 : ℝ) + 425 * (Real.cos (38 * Real.pi / 180) /
      Real.sin (38 * Real.pi / 180)) < 0) by push_neg; nlinarith)]

/-- The left warning line's raw X at the lower zone level sits near
x ≈ 560.6 (between the levels it is unclamped). -/
theorem rawL_bounds :
    560 < getXOnLine ⟨900, 1000⟩
        (bisect 180 (angleTo ⟨900, 1000⟩ ⟨-50, 0⟩)) 150 ∧
      getXOnLine ⟨900, 1000⟩
        (bisect 180 (angleTo ⟨900, 1000⟩ ⟨-50, 0⟩)) 150 < 561 := by
  have hco := cos_angleTo ⟨900, 1000⟩ ⟨-50, 0⟩ (by norm_num)
  have hsi := sin_angleTo ⟨900, 1000⟩ ⟨-50, 0⟩
  unfold getXOnLine
  rw [tan_bisect, tor180, Real.sin_pi, Real.cos_pi, hsi, hco]
  dsimp only
  set R := Real.sqrt (((0 : ℝ) - 1000) ^ 2 + ((-50 : ℝ) - 900) ^ 2) with hR
  have hval : ((0 : ℝ) - 1000) ^ 2 + ((-50 : ℝ) - 900) ^ 2 = 1902500 := by
    norm_num
  have hRl : 1379.3 < R := by
    rw [hR, hval, Real.lt_sqrt (by norm_num)]
    norm_num
  have hRu : R < 1379.4 := by
    rw [hR, hval, Real.sqrt_lt' (by norm_num)]
    norm_num
  have hR0 : (0 : ℝ) < R := by linarith
  have hden0 : (0 : ℝ) < R + 1000 := by linarith
  have hne : (-1 : ℝ) + (0 - 1000) / R ≠ 0 := by
    have h2 : (0 - 1000 : ℝ) / R < 0 := div_neg_of_neg_of_pos (by norm_num) hR0
    have h1 : (-1 : ℝ) + (0 - 1000) / R < 0 := by linarith
    exact ne_of_lt h1
  have hkey : (0 + (-50 - 900) / R) / (-1 + (0 - 1000) / R) =
      950 / (R + 1000) := by
    rw [div_eq_div_iff hne (ne_of_gt hden0)]
    field_simp [hR0.ne']
    ring
  rw [hkey]
  have h3 : (150 - 1000 : ℝ) * (950 / (R + 1000)) =
      -(807500 / (R + 1000)) := by ring
  rw [h3]
  constructor
  · have h2 : 807500 / (R + 1000) < 340 := by
      rw [div_lt_iff₀ hden0]
      nlinarith
    linarith
  · have h2 : 339 < 807500 / (R + 1000) := by
      rw [lt_div_iff₀ hden0]
      nlinarith
    linarith

/-- With the right corner near (865, 1044), the right warning line leans
so far over that its raw X at the lower zone level is below −800. -/
theorem rawR_bounds (r : Point) (hx0 : 863 < r.x) (hx1 : r.x < 867)
    (hy0 : 1042 < r.y) (hy1 : r.y < 1047) :
    getXOnLine ⟨900, 1000⟩ (bisect 180 (angleTo ⟨900, 1000⟩ r)) 150 < -800 := by
  have hco := cos_angleTo ⟨900, 1000⟩ r (by
    intro hcontra
    have h1 := hcontra.1
    dsimp only at h1
    linarith)
  have hsi := sin_angleTo ⟨900, 1000⟩ r
  unfold getXOnLine
  rw [tan_bisect, tor180, Real.sin_pi, Real.cos_pi, hsi, hco]
  dsimp only
  set R := Real.sqrt ((r.y - 1000) ^ 2 + (r.x - 900) ^ 2) with hR
  have hR0 : (0 : ℝ) ≤ R := Real.sqrt_nonneg _
  have hsq : R ^ 2 = (r.y - 1000) ^ 2 + (r.x - 900) ^ 2 := by
    rw [hR]
    exact Real.sq_sqrt (by positivity)
  have hdy : (42 : ℝ) < r.y - 1000 := by linarith
  have hdyu : r.y - 1000 < 47 := by linarith
  have hdxl : (-37 : ℝ) < r.x - 900 := by linarith
  have hdxu : r.x - 900 < -33 := by linarith
  have hb2l : (1089 : ℝ) < (r.x - 900) ^ 2 := by nlinarith
  have hb2u : (r.x - 900) ^ 2 < 1369 := by nlinarith
  have hRl : (53.4 : ℝ) < R := by
    rw [hR, Real.lt_sqrt (by norm_num)]
    nlinarith
  have hRu : R < 59.9 := by
    rw [hR, Real.sqrt_lt' (by norm_num)]
    nlinarith
  have hfact : (R - (r.y - 1000)) * (R + (r.y - 1000)) = (r.x - 900) ^ 2 := by
    linear_combination hsq
  have hsum : (95.4 : ℝ) < R + (r.y - 1000) := by linarith
  have hdiff : R - (r.y - 1000) < 14.36 := by
    by_contra hcon
    push_neg at hcon
    nlinarith [hfact, hb2u, hsum, hcon]
  have hRdy : 0 < R - (r.y - 1000) := by
    nlinarith [hsq, hb2l, hdy, hR0]
  have hR0' : (0 : ℝ) < R := by linarith
  have hne : (-1 : ℝ) + (r.y - 1000) / R ≠ 0 := by
    have h2 : (r.y - 1000) / R < 1 := by
      rw [div_lt_one hR0']
      linarith
    have h1 : (-1 : ℝ) + (r.y - 1000) / R < 0 := by linarith
    exact ne_of_lt h1
  have hkey : (0 + (r.x - 900) / R) / (-1 + (r.y - 1000) / R) =
      (900 - r.x) / (R - (r.y - 1000)) := by
    rw [div_eq_div_iff hne (ne_of_gt hRdy)]
    field_simp [hR0'.ne']
    ring
  rw [hkey]
  have hT : 2 < (900 - r.x) / (R - (r.y - 1000)) := by
    rw [lt_div_iff₀ hRdy]
    linarith
  have h3 : 900 + (150 - 1000 : ℝ) * ((900 - r.x) / (R - (r.y - 1000))) =
      900 - 850 * ((900 - r.x) / (R - (r.y - 1000))) := by ring
  rw [h3]
  nlinarith [hT]

/-- The left field boundary (pin to mark) crosses the lower zone level at
x = 92.5 when the left corner has collapsed to the pin. -/
theorem pLBot_val :
    getXOnPoly ⟨-50, 0⟩ ⟨-50, 0⟩ ⟨900, 1000⟩ 150 = 92.5 := by
  unfold getXOnPoly
  dsimp only
  rw [if_pos (by norm_num : (0 : ℝ) < 150)]
  norm_num

/-- The right field boundary crosses the lower zone level at a
nonnegative x when the right corner sits near (865, 1044). -/
theorem pRBot_nonneg (r : Point) (hx0 : 863 < r.x)
    (hy0 : 1042 < r.y) :
    0 ≤ getXOnPoly ⟨50, 0⟩ r ⟨900, 1000⟩ 150 := by
  unfold getXOnPoly
  dsimp only
  rw [if_neg (by push_neg; linarith : ¬ r.y < 150)]
  have hpos : (0 : ℝ) < (150 - 0) / (r.y - 0) := by
    apply div_pos (by norm_num)
    linarith
  nlinarith [mul_pos (show (0 : ℝ) < r.x - 50 by linarith) hpos]

/-- The crossover midpoint of the warning-line X's at the lower zone level
lies below −50 whenever the left raw X is below 561 and the right raw X is
below −800 (the clamps are max-from-the-left and min-from-the-right only,
so neither bounds the result from below). -/
theorem crossover_mid_bound (XL XR PR : ℝ) (h1 : XL < 561) (h2 : XR < -800) :
    (if min XR PR < max XL (92.5 : ℝ) then (max XL (92.5 : ℝ) + min XR PR) / 2
      else max XL (92.5 : ℝ)) < -50 := by
  have hmin : min XR PR ≤ XR := min_le_left _ _
  have hmax : (92.5 : ℝ) ≤ max XL 92.5 := le_max_right _ _
  rw [if_pos (by linarith)]
  have hmax2 : max XL (92.5 : ℝ) < 561 := max_lt h1 (by norm_num)
  linarith

/-- C5: zone polygons are claimed to be fully contained in the playing-field
polygon. This fails: at windDirection 0, windSpeed 20, startLineLength 100,
courseLength 1000, markShift 900 (showZones = true, both corners resolved),
every vertex of the field polygon has x ≥ −50, yet the green zone has a
vertex with x < −50 (numerically x ≈ −504): the right warning line's raw X
at the lower level escapes to ≈ −1570, the min/max clamps only bound it
from the right, and the crossover merge averages it into the green zone. -/
theorem claim5_code_bug :
    ∃ z : ZonesW, zonesWorld zonesCfg = some z ∧
      (∃ vs, fieldPolyWorld zonesCfg = some vs ∧ ∀ q ∈ vs, -50 ≤ q.x) ∧
      ∃ p ∈ z.green, p.x < -50 := by
  have hs := sin38_bounds
  have hc := cos38_bounds
  have ht := tan38_bounds
  have hs0 : (0 : ℝ) < Real.sin (38 * Real.pi / 180) := by linarith [hs.1]
  have hc0 : (0 : ℝ) < Real.cos (38 * Real.pi / 180) := by linarith [hc.1]
  have htsc : Real.tan (38 * Real.pi / 180) =
      Real.sin (38 * Real.pi / 180) / Real.cos (38 * Real.pi / 180) :=
    Real.tan_eq_sin_div_cos _
  have hsc1 : 0.7777 <
      Real.sin (38 * Real.pi / 180) / Real.cos (38 * Real.pi / 180) := by
    rw [← htsc]
    exact ht.1
  have hsc2 : Real.sin (38 * Real.pi / 180) / Real.cos (38 * Real.pi / 180) <
      0.7837 := by
    rw [← htsc]
    exact ht.2
  have hup : Real.sin (38 * Real.pi / 180) <
      0.7837 * Real.cos (38 * Real.pi / 180) := by
    rw [div_lt_iff₀ hc0] at hsc2
    linarith
  have hlo : 0.7777 * Real.cos (38 * Real.pi / 180) <
      Real.sin (38 * Real.pi / 180) := by
    rw [lt_div_iff₀ hc0] at hsc1
    linarith
  have hcs1 : 1.2758 <
      Real.cos (38 * Real.pi / 180) / Real.sin (38 * Real.pi / 180) := by
    rw [lt_div_iff₀ hs0]
    nlinarith [hup, hc0]
  have hcs2 : Real.cos (38 * Real.pi / 180) / Real.sin (38 * Real.pi / 180) <
      1.2859 := by
    rw [div_lt_iff₀ hs0]
    nlinarith [hlo, hc0]
  have hrx0 : (863 : ℝ) < 475 + 500 *
      (Real.sin (38 * Real.pi / 180) / Real.cos (38 * Real.pi / 180)) := by
    linarith
  have hrx1 : 475 + 500 *
      (Real.sin (38 * Real.pi / 180) / Real.cos (38 * Real.pi / 180)) <
      867 := by
    linarith
  have hry0 : (1042 : ℝ) < 500 + 425 *
      (Real.cos (38 * Real.pi / 180) / Real.sin (38 * Real.pi / 180)) := by
    linarith
  have hry1 : 500 + 425 *
      (Real.cos (38 * Real.pi / 180) / Real.sin (38 * Real.pi / 180)) <
      1047 := by
    linarith
  have hl := zones_left
  have hr := zones_right
  refine ⟨mkZones zonesCfg ⟨-50, 0⟩
    ⟨475 + 500 * (Real.sin (38 * Real.pi / 180) / Real.cos (38 * Real.pi / 180)),
      500 + 425 * (Real.cos (38 * Real.pi / 180) /
        Real.sin (38 * Real.pi / 180))⟩, ?_, ?_, ?_⟩
  · unfold zonesWorld
    have hshow : zonesCfg.showZones = true := rfl
    rw [if_pos hshow, hl, hr]
  · unfold fieldPolyWorld
    rw [hl, hr]
    refine ⟨_, rfl, ?_⟩
    intro q hq
    rw [zones_pin, zones_rc, zones_mark] at hq
    simp only [List.mem_cons, List.not_mem_nil, or_false] at hq
    rcases hq with h | h | h | h | h <;> subst h <;> dsimp only <;> linarith
  · unfold mkZones
    dsimp only
    refine ⟨_, List.mem_cons_of_mem _ (List.mem_cons_of_mem _
      (List.mem_cons_of_mem _ (List.mem_cons_self _ _))), ?_⟩
    dsimp only
    rw [zones_pin, zones_rc, zones_mark,
      show zonesCfg.courseLength = (1000 : ℝ) from rfl,
      show (1000 : ℝ) * 0.15 = 150 by norm_num,
      show zonesCfg.windDirection = (0 : ℝ) from rfl,
      show (0 : ℝ) + 180 = 180 by norm_num,
      jsMod_eq_self (by norm_num) (by norm_num),
      pLBot_val]
    exact crossover_mid_bound _ _ _ rawL_bounds.2
      (rawR_bounds _ (by dsimp only; exact hrx0) (by dsimp only; exact hrx1)
        (by dsimp only; exact hry0) (by dsimp only; exact hry1))

end

end Tactician
